import Mathlib

/-!
Verification of the ReAct agent runtime (cf_ai_local_tools).

This file shallowly embeds the core of the Rust sources:
* `src/agents/react_loop.rs` — the ReAct executor (`execute`),
* `src/main.rs` — the delegating tool dispatcher
  (`create_delegating_tool_executor`) and the session handler's
  chat-request / commandId handling (`connect_and_run`),
* `src/agents/storage.rs` and `src/agents/prompt_storage.rs` — the agent
  and prompt stores,
* `src/tools/util/mod.rs` — the delegation marker
  (`is_delegation_request`).

JSON values are modelled by an inductive `Json`; `serde_json::Value`
keeps object members in a `BTreeMap`, so object field lists are taken in
that canonical (key-sorted, duplicate-free) form and serialization walks
them in list order.  The LLM adapter (an HTTP client) is modelled by the
trace of responses it returns, consumed in call order; an exhausted trace
models a transport failure.  Tool callbacks are opaque functions from
(name, arguments) to `Except String String`, as the spec treats them.
-/

namespace CfAi

/-- JSON values, mirroring `serde_json::Value` (numbers restricted to
integers; the executor never computes with JSON numbers). -/
inductive Json where
  | null : Json
  | bool (b : Bool) : Json
  | num (n : Int) : Json
  | str (s : String) : Json
  | arr (elems : List Json) : Json
  | obj (fields : List (String × Json)) : Json

/-- String escaping of `serde_json`'s compact printer, for the characters
that occur in this development (quote, backslash and the common control
characters). -/
def escapeChar (c : Char) : List Char :=
  if c = '"' then ['\\', '"']
  else if c = '\\' then ['\\', '\\']
  else if c = '\n' then ['\\', 'n']
  else if c = '\t' then ['\\', 't']
  else if c = '\r' then ['\\', 'r']
  else [c]

def escapeStr (s : String) : List Char :=
  s.data.flatMap escapeChar

mutual
/-- Compact serialization of a JSON value: `serde_json::Value::to_string`
(`Display`), as used by `ToolCallSignature::new` (`arguments.to_string()`)
and by `format!("{}", arguments)` in `react_loop.rs`. -/
def serJson : Json → List Char
  | .null => "null".data
  | .bool true => "true".data
  | .bool false => "false".data
  | .num n => (toString n).data
  | .str s => '"' :: escapeStr s ++ ['"']
  | .arr xs => '[' :: serArr xs ++ [']']
  | .obj fs => '{' :: serObj fs ++ ['}']
def serArr : List Json → List Char
  | [] => []
  | [x] => serJson x
  | x :: y :: xs => serJson x ++ ',' :: serArr (y :: xs)
def serObj : List (String × Json) → List Char
  | [] => []
  | [(k, v)] => '"' :: escapeStr k ++ '"' :: ':' :: serJson v
  | (k, v) :: f :: fs =>
      '"' :: escapeStr k ++ '"' :: ':' :: serJson v ++ ',' :: serObj (f :: fs)
end

/-- `Value::to_string()` as a `String`. -/
def Json.toStr (j : Json) : String := String.mk (serJson j)

/-- Field lookup on a JSON object: `value.get(name)` of `serde_json`
(`None` on non-objects).  Objects are in canonical form, so the first
match is the match. -/
def Json.getField : Json → String → Option Json
  | .obj fs, name => fs.lookup name
  | _, _ => none

/-- Does a JSON value have a field of this name? -/
def Json.hasField (j : Json) (name : String) : Bool :=
  (j.getField name).isSome

/-- Remove a field from a JSON object (`obj.remove(name)` on a
`serde_json` map); non-objects are unchanged. -/
def Json.removeField : Json → String → Json
  | .obj fs, name => .obj (fs.filter (fun f => f.1 ≠ name))
  | j, _ => j

/-- Insert/replace a field of a JSON object (`obj.insert(name, v)`);
non-objects are unchanged.  Position in the field list is irrelevant to
the claims; the new binding replaces any old one. -/
def Json.setField : Json → String → Json → Json
  | .obj fs, name, v => .obj (fs.filter (fun f => f.1 ≠ name) ++ [(name, v)])
  | j, _, _ => j

/-- `value.get(name).and_then(|v| v.as_str())`. -/
def Json.getStr (j : Json) (name : String) : Option String :=
  match j.getField name with
  | some (.str s) => some s
  | _ => none

/-! ## Rust string functions

`str::replace`, `str::contains`, `str::trim` and `str::to_uppercase`,
embedded over `String.data : List Char`.  All recursions are structural
(a fuel argument bounds `replace`) so that every definition evaluates in
the kernel. -/

/-- First occurrence of `pat` in `hay`: `some (before, after)` splits
`hay` as `before ++ pat ++ after` at the leftmost match. -/
def firstMatch (pat : List Char) : List Char → Option (List Char × List Char)
  | [] => if pat.isEmpty then some ([], []) else none
  | c :: rest =>
      if pat.isPrefixOf (c :: rest) then some ([], (c :: rest).drop pat.length)
      else match firstMatch pat rest with
        | some (pre, post) => some (c :: pre, post)
        | none => none

/-- `str::contains` with a string pattern (substring containment). -/
def containsSub (hay pat : String) : Bool :=
  (firstMatch pat.data hay.data).isSome

/-- Replace every non-overlapping occurrence of `pat`, left to right.
`fuel` only needs to exceed the number of occurrences; callers pass the
haystack length, which always suffices. -/
def replaceAllAux (pat rep : List Char) : Nat → List Char → List Char
  | 0, hay => hay
  | fuel + 1, hay =>
      match firstMatch pat hay with
      | none => hay
      | some (pre, post) => pre ++ rep ++ replaceAllAux pat rep fuel post

/-- `str::replace` for a non-empty pattern (the executor only replaces the
literal tokens of the system-prompt template, which are non-empty). -/
def rustReplace (s pat rep : String) : String :=
  if pat.isEmpty then s
  else String.mk (replaceAllAux pat.data rep.data (s.data.length + 1) s.data)

/-- `str::trim`: strip leading and trailing whitespace. -/
def rustTrim (s : String) : String :=
  String.mk (((s.data.dropWhile Char.isWhitespace).reverse.dropWhile
    Char.isWhitespace).reverse)

/-- `str::to_uppercase`, per character (faithful on the ASCII text the
executor matches against). -/
def rustToUpper (s : String) : String :=
  String.mk (s.data.map Char.toUpper)

/-- `firstMatch` finds a split at the pattern: soundness of the substring
test. -/
theorem firstMatch_sound {pat hay pre post : List Char}
    (h : firstMatch pat hay = some (pre, post)) :
    hay = pre ++ pat ++ post := by
  induction hay generalizing pre post with
  | nil =>
      by_cases hp : pat.isEmpty
      · simp only [firstMatch, hp, if_true, Option.some.injEq, Prod.mk.injEq] at h
        obtain ⟨h1, h2⟩ := h
        subst h1; subst h2
        simp [List.isEmpty_iff.mp hp]
      · simp [firstMatch, hp] at h
  | cons c rest ih =>
      rw [firstMatch] at h
      by_cases hpre : pat.isPrefixOf (c :: rest)
      · simp only [hpre, if_true, Option.some.injEq, Prod.mk.injEq] at h
        obtain ⟨h1, h2⟩ := h
        subst h1; subst h2
        obtain ⟨t, ht⟩ := List.isPrefixOf_iff_prefix.mp hpre
        have hdrop : (c :: rest).drop pat.length = t := by
          rw [← ht]; exact List.drop_left pat t
        rw [hdrop, ← ht]
        simp
      · simp only [hpre, if_false] at h
        cases hm : firstMatch pat rest with
        | none => rw [hm] at h; exact absurd h (by simp)
        | some pp =>
            obtain ⟨pre', post'⟩ := pp
            rw [hm] at h
            simp only [Bool.false_eq_true, if_false, Option.some.injEq,
              Prod.mk.injEq] at h
            rw [← h.1, ← h.2, ih hm]
            simp

/-- `firstMatch` succeeds on every infix: completeness of the substring
test. -/
theorem firstMatch_isSome_of_infix {pat hay : List Char} (h : pat <:+: hay) :
    (firstMatch pat hay).isSome := by
  induction hay with
  | nil =>
      have hp : pat = [] := List.eq_nil_of_infix_nil h
      simp [firstMatch, hp]
  | cons c rest ih =>
      rw [List.infix_cons_iff] at h
      by_cases hpre : pat.isPrefixOf (c :: rest)
      · rw [firstMatch, if_pos hpre]; simp
      · have hi : pat <:+: rest := by
          cases h with
          | inl hp => exact absurd (List.isPrefixOf_iff_prefix.mpr hp) hpre
          | inr hi => exact hi
        have := ih hi
        rw [firstMatch, if_neg hpre]
        cases hm : firstMatch pat rest with
        | none => rw [hm] at this; simp at this
        | some pp => obtain ⟨a, b⟩ := pp; simp

/-- The substring test agrees with `List.IsInfix`. -/
theorem containsSub_iff_infix (hay pat : String) :
    containsSub hay pat = true ↔ pat.data <:+: hay.data := by
  constructor
  · intro h
    simp only [containsSub, Option.isSome_iff_exists] at h
    obtain ⟨⟨pre, post⟩, hm⟩ := h
    exact ⟨pre, post, (firstMatch_sound hm).symm⟩
  · intro h
    exact firstMatch_isSome_of_infix h

/-! ## ReAct executor (`src/agents/react_loop.rs`)

The executor's environment is made explicit: the LLM adapter is the list
of responses its successive `chat_with_tools` calls return (an exhausted
list models a failed call, the `?` propagation); the tool executor is an
opaque `(name, arguments) → Except String String`.  The tool schemas the
source converts and sends with each action call
(`convert_tools_to_cf_schema`) only influence what the modelled LLM
answers, so they are absorbed into the trace.  The steps list of a result
is the sequence the executor sends on the step channel, in send order
(the source ignores channel send failures). -/

/-- `AgentConfig` of `react_loop.rs`. -/
structure AgentConfig where
  system_prompt : String
  model_id : String
  max_iterations : Nat
  tools : List String
  separate_reasoning_model : Bool
  reasoning_model_id : Option String

/-- `Message` of `llm` as used by the executor. -/
structure Message where
  role : String
  content : String
deriving DecidableEq

structure ToolParameter where
  name : String
  param_type : String
  description : String
  required : Bool
  enum_values : Option (List String)
  default : Option Json

structure ToolDefinition where
  id : String
  name : String
  description : String
  category : String
  parameters : List ToolParameter
  returns_observation : Bool

/-- One tool call of an LLM response (`{name, arguments}`). -/
structure ToolCall where
  name : String
  arguments : Json

/-- What one `chat_with_tools` call returns (the fields the executor
reads). -/
structure LLMResponse where
  response : String
  tool_calls : Option (List ToolCall)

structure ToolAction where
  tool : String
  parameters : Json

structure ToolObservation where
  result : Json
  error : Option String

/-- `ExecutionStep` of `react_loop.rs`. -/
structure ExecutionStep where
  step_number : Nat
  thought : String
  action : Option ToolAction
  observation : Option ToolObservation
  agent_id : Option String

/-- `ToolCallSignature`: tool name plus `arguments.to_string()`. -/
structure ToolCallSignature where
  tool_name : String
  arguments_hash : String
deriving DecidableEq

def ToolCallSignature.new (tool_name : String) (arguments : Json) :
    ToolCallSignature :=
  ⟨tool_name, arguments.toStr⟩

/-- `is_loop_detected`: the signature already occurs at least twice in
the history (so this identical call would be the third). -/
def is_loop_detected (history : List ToolCallSignature)
    (current : ToolCallSignature) : Bool :=
  2 ≤ (history.filter (fun h => h = current)).length

/-- `[T]::join(sep)` / `Vec::join`: elements joined by the separator. -/
def joinSep (sep : String) : List String → String
  | [] => ""
  | [x] => x
  | x :: y :: rest => x ++ sep ++ joinSep sep (y :: rest)

/-- The tools listing joined by newlines (preprocessing step (iii)). -/
def toolsListing (enabledTools : List ToolDefinition) : String :=
  joinSep "\n" (enabledTools.map
    (fun t => "- " ++ t.name ++ " (" ++ t.id ++ "): " ++ t.description))

/-- System-prompt interpolation of `execute`: `{tools}` ↦ the listing,
`{purpose}` ↦ the fixed text `"Execute user tasks using available
tools"` (the source passes this literal, not a per-agent purpose). -/
def interpolatePrompt (systemPrompt toolsList : String) : String :=
  rustReplace (rustReplace systemPrompt "\x7btools\x7d" toolsList)
    "\x7bpurpose\x7d" "Execute user tasks using available tools"

/-- The fixed reasoning-phase user prompt (phase 1). -/
def reasoningPrompt : String :=
  "Before taking action, think step-by-step and reflect:\n1. What is the user's overall goal from the conversation history?\n2. Review the most recent observations (if any) and summarize key insights or changes they introduce.\n3. What specific action should you take next to progress toward the goal? Explain why this action differs from previous ones if applicable.\n4. Will this action complete the goal? If yes, end your thought with 'GOAL_COMPLETE'.\n\nProvide concise reasoning (2-3 sentences max). Do NOT call tools or suggest actions here - focus on thinking only."

/-- The fixed action-phase user prompt (phase 2). -/
def actionPrompt : String :=
  "Based on your reasoning above, execute the next action. You MUST call exactly one available tool to make progress toward the goal. Do not explain, describe, or add text - just call the tool with the appropriate parameters. If your reasoning indicated 'GOAL_COMPLETE', do not call any tools."

/-- The fail-soft loop-abort result string. -/
def loopAbortMsg (tc : ToolCall) : String :=
  "I attempted to call " ++ tc.name ++
    " multiple times with the same parameters but couldn't make progress. The task may require different tools or a different approach. Last attempted: "
    ++ tc.name ++ " with " ++ tc.arguments.toStr

/-- The exhaustion result string (after `max_iterations` iterations). -/
def maxIterMsg (maxIterations : Nat) (messages : List Message) : String :=
  "Max iterations (" ++ toString maxIterations ++
    ") reached without completing the goal. The task may require a different approach or additional tools. Last thought: '"
    ++ (match messages.getLast? with
        | some m => m.content
        | none => "None") ++ "'"

/-- Executing one tool call: a successful result is the observation; an
error is recovered into `"Error executing tool '<name>': <e>"`, recorded
both as the observation text and as the error. -/
def execCall (toolExec : String → Json → Except String String)
    (tc : ToolCall) : String × Option String :=
  match toolExec tc.name tc.arguments with
  | .ok result => (result, none)
  | .error e =>
      let errMsg := "Error executing tool '" ++ tc.name ++ "': " ++ e
      (errMsg, some errMsg)

/-- The formatted observation string
`[<STATUS>] Tool '<name>': <Succeeded|Failed>\nDetails: <observation>`. -/
def formatObservation (tc : ToolCall) (observation : String)
    (error : Option String) : String :=
  let status := if error.isSome then "FAILED" else "SUCCESS"
  let verdict := if error.isSome then "Failed" else "Succeeded"
  "[" ++ status ++ "] Tool '" ++ tc.name ++ "': " ++ verdict ++
    "\nDetails: " ++ observation

/-- The Observation step for one executed tool call. -/
def obsStep (tc : ToolCall) (iteration idx total : Nat)
    (formatted : String) (error : Option String)
    (agentId : Option String) : ExecutionStep :=
  { step_number := iteration,
    thought := "Executed " ++ tc.name ++ " (tool " ++ toString (idx + 1)
      ++ "/" ++ toString total ++ ")",
    action := some ⟨tc.name, tc.arguments⟩,
    observation := some ⟨Json.str formatted, error⟩,
    agent_id := agentId }

/-- Execute the tool calls of one action response in order, collecting
the emitted Observation steps and the formatted observation strings. -/
def runToolCalls (toolExec : String → Json → Except String String)
    (iteration : Nat) (agentId : Option String) (total : Nat) :
    Nat → List ToolCall → List ExecutionStep × List String
  | _, [] => ([], [])
  | idx, tc :: rest =>
      let (observation, error) := execCall toolExec tc
      let formatted := formatObservation tc observation error
      let step := obsStep tc iteration idx total formatted error agentId
      let (steps, texts) := runToolCalls toolExec iteration agentId total
        (idx + 1) rest
      (step :: steps, formatted :: texts)

/-- The observations user message appended after the tool calls of one
iteration. -/
def observationsMsg (observations : List String) : String :=
  "Latest Observations:\n" ++ joinSep "\n\n" observations ++
    "\n\nReflect on these results and decide the next action to progress toward the goal. If errors occurred, adapt your approach."

/-- The mutable state of the ReAct loop: the conversation buffer, the
loop-detection history (a FIFO of at most ten signatures) and the unread
remainder of the LLM trace.  A trace entry `.error e` is a
`chat_with_tools` call failing with message `e`; a run that would read
past the end of the trace fails with the empty message (the modelled
environment simply must supply one entry per call — no theorem depends
on that text). -/
structure LoopState where
  messages : List Message
  history : List ToolCallSignature
  llmTrace : List (Except String LLMResponse)

/-- The outcome of one loop iteration: continue with a new state, return
a result, or abort on a failed LLM call (the `?` propagation).  In each
case `emitted` lists the steps sent during the iteration, in order. -/
inductive StepOut where
  | next (emitted : List ExecutionStep) (st : LoopState)
  | done (emitted : List ExecutionStep) (result : String) (st : LoopState)
  | fail (emitted : List ExecutionStep) (e : String) (st : LoopState)

/-- One iteration of the ReAct loop (the body of the `for` in
`execute`): the reasoning call, the `GOAL_COMPLETE` check, the default
thought, the action call, and either the tool-call branch (loop
detection, Action step, tool execution with Observation steps, the
observations message) or the terminal no-tool-calls branch. -/
def reactStep (userMessage : String)
    (toolExec : String → Json → Except String String)
    (agentId : Option String) (iteration : Nat) (st : LoopState) :
    StepOut :=
  match st.llmTrace with
  | [] => .fail [] "" st
  | .error e :: trace1 => .fail [] e { st with llmTrace := trace1 }
  | .ok reasoningResponse :: trace1 =>
    let thought := rustTrim reasoningResponse.response
    if containsSub (rustToUpper thought) "GOAL_COMPLETE" then
      .done [] ("Task completed: " ++ thought)
        { st with llmTrace := trace1 }
    else
      let thought := if thought.isEmpty
        then "Processing user request: " ++ userMessage else thought
      match trace1 with
      | [] => .fail [] "" { st with llmTrace := [] }
      | .error e :: trace2 => .fail [] e { st with llmTrace := trace2 }
      | .ok actionResponse :: trace2 =>
        let st2 : LoopState := { st with llmTrace := trace2 }
        match actionResponse.tool_calls with
        | some (firstToolCall :: restCalls) =>
            let toolCalls := firstToolCall :: restCalls
            let callSignature :=
              ToolCallSignature.new firstToolCall.name firstToolCall.arguments
            if is_loop_detected st2.history callSignature then
              .done [] (loopAbortMsg firstToolCall) st2
            else
              let history1 := st2.history ++ [callSignature]
              let history2 := if 10 < history1.length
                then history1.drop 1 else history1
              let actionStep : ExecutionStep :=
                { step_number := iteration, thought := thought,
                  action := some ⟨firstToolCall.name, firstToolCall.arguments⟩,
                  observation := none, agent_id := agentId }
              let messages1 := st2.messages ++
                [⟨"assistant", actionResponse.response⟩]
              let (observationSteps, observations) :=
                runToolCalls toolExec iteration agentId toolCalls.length 0
                  toolCalls
              let messages2 := messages1 ++
                [⟨"user", observationsMsg observations⟩]
              .next (actionStep :: observationSteps)
                { messages := messages2, history := history2,
                  llmTrace := trace2 }
        | _ =>
            let finalResponse :=
              if ¬ thought.isEmpty ∧ ¬ actionResponse.response.isEmpty then
                thought ++ "\n\n" ++ actionResponse.response
              else if ¬ actionResponse.response.isEmpty then
                actionResponse.response
              else thought
            .done [] finalResponse st2

/-- The outcome of a whole execution: `result` is the returned string or
the propagated LLM-call error, `steps` the steps sent on the channel in
order, `messages` the final conversation buffer, `llmRest` the unread
trace, and `exhausted` whether the `for` loop ran through all
`max_iterations` iterations without returning. -/
structure ExecDone where
  result : Except String String
  steps : List ExecutionStep
  messages : List Message
  llmRest : List (Except String LLMResponse)
  exhausted : Bool

/-- The bounded ReAct loop: at most `fuel` further iterations, the next
one numbered `iteration`. -/
def execLoop (cfg : AgentConfig) (userMessage : String)
    (toolExec : String → Json → Except String String)
    (agentId : Option String) :
    Nat → Nat → LoopState → ExecDone
  | 0, _, st =>
      { result := .ok (maxIterMsg cfg.max_iterations st.messages),
        steps := [], messages := st.messages, llmRest := st.llmTrace,
        exhausted := true }
  | fuel + 1, iteration, st =>
      match reactStep userMessage toolExec agentId iteration st with
      | .next emitted st2 =>
          let d := execLoop cfg userMessage toolExec agentId fuel
            (iteration + 1) st2
          { d with steps := emitted ++ d.steps }
      | .done emitted result st2 =>
          { result := .ok result, steps := emitted,
            messages := st2.messages, llmRest := st2.llmTrace,
            exhausted := false }
      | .fail emitted e st2 =>
          { result := .error e, steps := emitted, messages := st2.messages,
            llmRest := st2.llmTrace, exhausted := false }

/-- `execute` of `react_loop.rs`: preprocessing (tool filtering, the
tools listing, prompt interpolation, the initial buffer) followed by the
iteration loop, iterations numbered `1..=max_iterations`. -/
def execute (cfg : AgentConfig) (userMessage : String)
    (availableTools : List ToolDefinition)
    (toolExec : String → Json → Except String String)
    (agentId : Option String)
    (llmTrace : List (Except String LLMResponse)) : ExecDone :=
  let enabledTools := availableTools.filter (fun t => cfg.tools.contains t.id)
  let toolsList := toolsListing enabledTools
  let interpolatedPrompt := interpolatePrompt cfg.system_prompt toolsList
  execLoop cfg userMessage toolExec agentId cfg.max_iterations 1
    { messages := [⟨"system", interpolatedPrompt⟩, ⟨"user", userMessage⟩],
      history := [], llmTrace := llmTrace }

/-! ## Agent and prompt stores (`storage.rs`, `prompt_storage.rs`)

Each store is a map from identifier to record, modelled as an
association list (insertion replaces the binding of the key).  File
persistence (`save`) rewrites the whole map on every mutation and does
not alter the in-memory contents, so it is not modelled.  The clock
`chrono::Utc::now().to_rfc3339()` is the explicit argument `now`. -/

/-- `Agent` of `storage.rs`. -/
structure Agent where
  id : String
  name : String
  purpose : String
  system_prompt : String
  tools : List String
  model_id : String
  max_iterations : Nat
  is_locked : Bool
  separate_reasoning_model : Bool
  reasoning_model_id : Option String
  created_at : String
  updated_at : String

def AgentStore := List (String × Agent)

def AgentStore.get (st : AgentStore) (id : String) : Option Agent :=
  List.lookup id st

def AgentStore.insert (st : AgentStore) (id : String) (a : Agent) :
    AgentStore :=
  List.filter (fun p => p.1 ≠ id) st ++ [(id, a)]

def AgentStore.remove (st : AgentStore) (id : String) : AgentStore :=
  List.filter (fun p => p.1 ≠ id) st

/-- `AgentStorage::create`: reject a duplicate id, else insert. -/
def AgentStorage.create (st : AgentStore) (agent : Agent) :
    Except String Agent × AgentStore :=
  if (st.get agent.id).isSome then
    (.error ("Agent with id '" ++ agent.id ++ "' already exists"), st)
  else (.ok agent, st.insert agent.id agent)

/-- `AgentStorage::update`: reject a missing or locked record, else
replace it wholesale. -/
def AgentStorage.update (st : AgentStore) (id : String) (agent : Agent) :
    Except String Agent × AgentStore :=
  match st.get id with
  | none => (.error ("Agent '" ++ id ++ "' not found"), st)
  | some existing =>
      if existing.is_locked then
        (.error ("Cannot update locked agent '" ++ id ++ "'"), st)
      else (.ok agent, st.insert id agent)

/-- `AgentStorage::delete`: reject a missing or locked record, else
remove it. -/
def AgentStorage.delete (st : AgentStore) (id : String) :
    Except String Unit × AgentStore :=
  match st.get id with
  | none => (.error ("Agent '" ++ id ++ "' not found"), st)
  | some existing =>
      if existing.is_locked then
        (.error ("Cannot delete locked agent '" ++ id ++ "'"), st)
      else (.ok (), st.remove id)

/-- `PromptMetadata` of `prompt_storage.rs`. -/
structure PromptMetadata where
  created_at : String
  updated_at : String
  version : String
  author : Option String
  tags : Option (List String)

/-- `Prompt` of `prompt_storage.rs`. -/
structure Prompt where
  id : String
  name : String
  description : String
  prompt_type : String
  category : String
  content : String
  metadata : PromptMetadata
  is_locked : Bool

def PromptStore := List (String × Prompt)

def PromptStore.get (st : PromptStore) (id : String) : Option Prompt :=
  List.lookup id st

def PromptStore.insert (st : PromptStore) (id : String) (p : Prompt) :
    PromptStore :=
  List.filter (fun q => q.1 ≠ id) st ++ [(id, p)]

def PromptStore.remove (st : PromptStore) (id : String) : PromptStore :=
  List.filter (fun q => q.1 ≠ id) st

/-- `PromptStorage::create`: reject a duplicate id; otherwise force
`category = "user-created"`, `is_locked = false`, both timestamps to the
current time and `version = "1.0.0"`, then insert. -/
def PromptStorage.create (now : String) (st : PromptStore)
    (prompt : Prompt) : Except String Prompt × PromptStore :=
  if (st.get prompt.id).isSome then
    (.error ("Prompt with id '" ++ prompt.id ++ "' already exists"), st)
  else
    let p := { prompt with
      category := "user-created", is_locked := false,
      metadata := { prompt.metadata with
        created_at := now, updated_at := now, version := "1.0.0" } }
    (.ok p, st.insert p.id p)

/-- `PromptStorage::update`: reject a missing or locked record; else
keep the original creation time, stamp the update time, force unlocked
user-created, and replace. -/
def PromptStorage.update (now : String) (st : PromptStore) (id : String)
    (updates : Prompt) : Except String Prompt × PromptStore :=
  match st.get id with
  | none => (.error ("Prompt '" ++ id ++ "' not found"), st)
  | some existing =>
      if existing.is_locked then
        (.error ("Cannot modify locked prompt '" ++ id ++ "'"), st)
      else
        let u := { updates with
          metadata := { updates.metadata with
            created_at := existing.metadata.created_at,
            updated_at := now },
          is_locked := false, category := "user-created" }
        (.ok u, st.insert id u)

/-- `PromptStorage::delete`: reject a missing or locked record, else
remove it. -/
def PromptStorage.delete (st : PromptStore) (id : String) :
    Except String Unit × PromptStore :=
  match st.get id with
  | none => (.error ("Prompt '" ++ id ++ "' not found"), st)
  | some existing =>
      if existing.is_locked then
        (.error ("Cannot delete locked prompt '" ++ id ++ "'"), st)
      else (.ok (), st.remove id)

/-! ## Delegation (`tools/util/mod.rs`, `create_delegating_tool_executor`
in `main.rs`) -/

/-- `DelegationRequest` of `tools/util/mod.rs`. -/
structure DelegationRequest where
  agent_id : String
  task : String

/-- `strip_prefix`. -/
def stripPrefixStr (s pre : String) : Option String :=
  if pre.data.isPrefixOf s.data then
    some (String.mk (s.data.drop pre.data.length))
  else none

def unescapeChar (c : Char) : Option Char :=
  if c = '"' then some '"'
  else if c = '\\' then some '\\'
  else if c = 'n' then some '\n'
  else if c = 't' then some '\t'
  else if c = 'r' then some '\r'
  else none

/-- Parse a JSON string body (after its opening quote) up to its closing
quote, handling the escapes of `escapeChar`. -/
def parseJsonString : List Char → Option (String × List Char)
  | [] => none
  | '"' :: rest => some ("", rest)
  | '\\' :: c :: rest =>
      match unescapeChar c with
      | some c2 =>
          match parseJsonString rest with
          | some (s, r) => some (String.mk (c2 :: s.data), r)
          | none => none
      | none => none
  | c :: rest =>
      if c = '\\' then none
      else
        match parseJsonString rest with
        | some (s, r) => some (String.mk (c :: s.data), r)
        | none => none

/-- Parse the canonical serialization
`{"agent_id":"…","task":"…"}` that `execute_utility_tool` produces (the
only delegation payloads the program emits; `serde_json`'s deserializer
would accept reformatted variants, which this program never produces). -/
def parseDelegationJson (s : String) : Option DelegationRequest :=
  match stripPrefixStr s "\x7b\"agent_id\":\"" with
  | none => none
  | some rest1 =>
      match parseJsonString rest1.data with
      | none => none
      | some (agentId, rest2) =>
          match stripPrefixStr (String.mk rest2) ",\"task\":\"" with
          | none => none
          | some rest3 =>
              match parseJsonString rest3.data with
              | none => none
              | some (task, rest4) =>
                  if String.mk rest4 = "\x7d" then
                    some ⟨agentId, task⟩
                  else none

/-- `is_delegation_request`: strip the `__DELEGATE__:` marker and parse
the serialized request. -/
def is_delegation_request (result : String) : Option DelegationRequest :=
  match stripPrefixStr result "__DELEGATE__:" with
  | none => none
  | some jsonStr => parseDelegationJson jsonStr

/-- `execute_utility_tool "delegate_to_agent"`: the marker-framed
serialized request. -/
def delegationMarker (d : DelegationRequest) : String :=
  "__DELEGATE__:" ++
    (Json.obj [("agent_id", Json.str d.agent_id),
               ("task", Json.str d.task)]).toStr

/-- `AgentConfig` built from a stored agent by the dispatcher (note:
`separate_reasoning_model` and `reasoning_model_id` are not copied). -/
def agentToConfig (agent : Agent) : AgentConfig :=
  { model_id := agent.model_id, system_prompt := agent.system_prompt,
    tools := agent.tools, max_iterations := agent.max_iterations,
    separate_reasoning_model := false, reasoning_model_id := none }

/-- The body of the closure `create_delegating_tool_executor` builds at
depth `currentDepth`.  `rawExec` is `execute_tool_async` (opaque
concrete tools); `lookup` is `agent_storage.get`; `runReact` abstracts
the recursive `execute_react_loop` invocation, its last argument being
the depth of the delegated executor built for that nested execution
(`current_depth + 1` in the source). -/
def dispatchTool (rawExec : String → Json → Except String String)
    (lookup : String → Option Agent) (maxDelegationDepth : Nat)
    (runReact : AgentConfig → String → Option String → Nat →
      Except String String)
    (currentDepth : Nat) (toolName : String) (arguments : Json) :
    Except String String :=
  match rawExec toolName arguments with
  | .error e => .error e
  | .ok result =>
    match is_delegation_request result with
    | none => .ok result
    | some d =>
        if maxDelegationDepth ≤ currentDepth then
          .error ("Maximum delegation depth (" ++
            toString maxDelegationDepth ++
            ") reached. Cannot delegate to agent '" ++ d.agent_id ++ "'")
        else
          match lookup d.agent_id with
          | none => .error ("Delegated agent '" ++ d.agent_id ++
              "' not found")
          | some agent =>
              match runReact (agentToConfig agent) d.task
                  (some d.agent_id) (currentDepth + 1) with
              | .error e => .error e
              | .ok r => .ok ("Delegated to agent '" ++ d.agent_id ++
                  "'. Result:\n" ++ r)

/-- The maximum delegation depth the session handler assembles into the
`ToolExecutionContext` of every chat request (`main.rs`). -/
def sessionMaxDelegationDepth : Nat := 3

/-- The dispatcher the chat handler builds:
`create_delegating_tool_executor(&exec_ctx, 0)` with the session's
maximum depth. -/
def sessionDispatcher (rawExec : String → Json → Except String String)
    (lookup : String → Option Agent)
    (runReact : AgentConfig → String → Option String → Nat →
      Except String String)
    (toolName : String) (arguments : Json) : Except String String :=
  dispatchTool rawExec lookup sessionMaxDelegationDepth runReact 0
    toolName arguments

/-! ## Session handler (`connect_and_run` in `main.rs`)

Outbound frames are modelled as `Json` values (the serialization
`serde_json` performs before writing each text frame).  `serde_json`
maps are `BTreeMap`s, so object fields are listed in key-sorted order.
An optional field whose serde attribute is `skip_serializing_if =
"Option::is_none"` is omitted when `none`. -/

/-- Serialization of a stored `Agent` (camelCase field names, key-sorted;
`reasoningModelId` has no skip attribute so `None` serializes as
`null`). -/
def Agent.toJson (a : Agent) : Json :=
  Json.obj [
    ("createdAt", Json.str a.created_at),
    ("id", Json.str a.id),
    ("isLocked", Json.bool a.is_locked),
    ("maxIterations", Json.num a.max_iterations),
    ("modelId", Json.str a.model_id),
    ("name", Json.str a.name),
    ("purpose", Json.str a.purpose),
    ("reasoningModelId", match a.reasoning_model_id with
      | some m => Json.str m
      | none => Json.null),
    ("separateReasoningModel", Json.bool a.separate_reasoning_model),
    ("systemPrompt", Json.str a.system_prompt),
    ("tools", Json.arr (a.tools.map Json.str)),
    ("updatedAt", Json.str a.updated_at)]

/-- Serialization of an `ExecutionStep` (the `action`, `observation` and
`agentId` fields are skipped when `none`, as is `observation.error`). -/
def ExecutionStep.toJson (s : ExecutionStep) : Json :=
  Json.obj (
    (match s.action with
     | some a => [("action", Json.obj [("parameters", a.parameters),
         ("tool", Json.str a.tool)])]
     | none => []) ++
    (match s.agent_id with
     | some i => [("agentId", Json.str i)]
     | none => []) ++
    (match s.observation with
     | some o => [("observation", Json.obj (
         (match o.error with
          | some e => [("error", Json.str e)]
          | none => []) ++ [("result", o.result)]))]
     | none => []) ++
    [("stepNumber", Json.num s.step_number),
     ("thought", Json.str s.thought)])

/-- The `execution_step` envelope the step-streaming task writes for
each received step. -/
def stepFrame (s : ExecutionStep) : Json :=
  Json.obj [("step", s.toJson), ("type", Json.str "execution_step")]

/-- The `chat_request` branch of the session handler, from the parsed
payload on: reject a payload whose agent failed to parse; validate the
agent's tool identifiers against the available table and reject unknown
ones without running the executor; otherwise run the executor
(`runExec` abstracts `execute_react_loop` with the session's assembled
dispatcher, step channel and agent id) and emit the streamed step frames
followed by the final `chat_response`.  The returned list is the
sequence of frames written to the socket for this request. -/
def handleChatRequest (availableTools : List ToolDefinition)
    (runExec : AgentConfig → String → ExecDone)
    (userMessage : String) (agentCfg : Option AgentConfig) : List Json :=
  match agentCfg with
  | none => [Json.obj [
      ("content", Json.str "Error: Invalid agent configuration"),
      ("error", Json.bool true), ("type", Json.str "chat_response")]]
  | some cfg =>
      let availableToolIds := availableTools.map (fun t => t.id)
      let invalidTools := cfg.tools.filter
        (fun toolId => !availableToolIds.contains toolId)
      if !invalidTools.isEmpty then
        [Json.obj [
          ("content", Json.str ("Error: Agent '" ++ cfg.model_id ++
            "' references unknown tools: " ++
            joinSep ", " invalidTools ++
            ". Available tools are: " ++
            joinSep ", " availableToolIds)),
          ("error", Json.bool true), ("type", Json.str "chat_response")]]
      else
        let d := runExec cfg userMessage
        d.steps.map stepFrame ++
          [match d.result with
           | .ok response => Json.obj [
               ("content", Json.str response),
               ("type", Json.str "chat_response")]
           | .error e => Json.obj [
               ("content", Json.str ("Error: " ++ e)),
               ("error", Json.bool true),
               ("type", Json.str "chat_response")]]

/-- The message kinds the dispatch `match` recognizes; each of their
branches ends in `continue`, before the commandId handling. -/
def recognizedTypes : List String :=
  ["handshake_ack", "pong", "get_agents", "create_agent", "update_agent",
   "delete_agent", "get_agent", "chat_request", "get_presets",
   "get_tools", "reset_agents", "get_prompts", "create_prompt",
   "update_prompt", "delete_prompt", "reset_prompts"]

/-- The `get_agents` reply. -/
def agentsListFrame (agents : AgentStore) : Json :=
  Json.obj [("agents", Json.arr (agents.map (fun p => p.2.toJson))),
            ("type", Json.str "agents_list")]

/-- The raw-automation-command path at the end of the receive loop:
extract a string-valued `commandId`, strip it, hand the rest to the
`Command` parser and `handle_command` (abstracted as `handleCommand`;
its `.ok` value is the serialized `Response`, always an internally
tagged object; `.error e` is a serde parse failure with message `e`),
and put the `commandId` back on the outbound object. -/
def rawCommandPath (handleCommand : Json → Except String Json)
    (frame : Json) : List Json :=
  let commandId := frame.getStr "commandId"
  let stripped := frame.removeField "commandId"
  match handleCommand stripped with
  | .ok response =>
      [match commandId with
       | some id => response.setField "commandId" (Json.str id)
       | none => response]
  | .error e =>
      let errorResponse := Json.obj [
        ("error", Json.str ("Invalid command format: " ++ e)),
        ("type", Json.str "error")]
      [match commandId with
       | some id => errorResponse.setField "commandId" (Json.str id)
       | none => errorResponse]

/-- One turn of the session receive loop on a parsed inbound object:
dispatch on the `type` field.  The `get_agents` branch is concrete; the
other recognized branches are abstracted by `protoHandler` (each of
their bodies replies and `continue`s without ever reaching the
commandId code, so their frames are whatever the branch sends); an
unrecognized or missing `type` falls through to the raw-command path. -/
def handleFrame (agents : AgentStore)
    (protoHandler : String → Json → List Json)
    (handleCommand : Json → Except String Json) (frame : Json) :
    List Json :=
  match frame.getField "type" with
  | some (Json.str t) =>
      if t = "get_agents" then [agentsListFrame agents]
      else if recognizedTypes.contains t then protoHandler t frame
      else rawCommandPath handleCommand frame
  | _ => rawCommandPath handleCommand frame

/-! ## General lemmas about the executor loop -/

/-- The state carried out of an iteration outcome. -/
def StepOut.state : StepOut → LoopState
  | .next _ st => st
  | .done _ _ st => st
  | .fail _ _ st => st

theorem strData_append (s t : String) : (s ++ t).data = s.data ++ t.data :=
  rfl

/-- One iteration only ever appends to the conversation buffer. -/
theorem reactStep_messages_ext (userMessage : String)
    (toolExec : String → Json → Except String String)
    (agentId : Option String) (iteration : Nat) (st : LoopState) :
    ∃ ext, (reactStep userMessage toolExec agentId iteration st).state.messages
      = st.messages ++ ext := by
  obtain ⟨msgs, hist, trace⟩ := st
  match trace with
  | [] => exact ⟨[], by simp [reactStep, StepOut.state]⟩
  | .error e :: trace1 => exact ⟨[], by simp [reactStep, StepOut.state]⟩
  | .ok reasoningResponse :: trace1 =>
      rw [reactStep]
      dsimp only
      split
      · exact ⟨[], by simp [StepOut.state]⟩
      · match trace1 with
        | [] => exact ⟨[], by simp [StepOut.state]⟩
        | .error e :: trace2 => exact ⟨[], by simp [StepOut.state]⟩
        | .ok actionResponse :: trace2 =>
            dsimp only
            match hc : actionResponse.tool_calls with
            | some (firstToolCall :: restCalls) =>
                dsimp only
                split
                · exact ⟨[], by simp [StepOut.state]⟩
                · exact ⟨_, by dsimp only [StepOut.state]; rw [List.append_assoc]⟩
            | some [] => exact ⟨[], by simp [StepOut.state]⟩
            | none => exact ⟨[], by simp [StepOut.state]⟩

/-- The whole loop only ever appends to the conversation buffer. -/
theorem execLoop_messages_ext (cfg : AgentConfig) (userMessage : String)
    (toolExec : String → Json → Except String String)
    (agentId : Option String) :
    ∀ (fuel iteration : Nat) (st : LoopState),
    ∃ ext, (execLoop cfg userMessage toolExec agentId fuel iteration st).messages
      = st.messages ++ ext := by
  intro fuel
  induction fuel with
  | zero => exact fun iteration st => ⟨[], by simp [execLoop]⟩
  | succ n ih =>
      intro iteration st
      rw [execLoop]
      obtain ⟨ext, hext⟩ := reactStep_messages_ext userMessage toolExec
        agentId iteration st
      cases h : reactStep userMessage toolExec agentId iteration st with
      | next emitted st2 =>
          obtain ⟨ext2, hext2⟩ := ih (iteration + 1) st2
          refine ⟨ext ++ ext2, ?_⟩
          dsimp only
          rw [hext2]
          rw [h] at hext
          dsimp only [StepOut.state] at hext
          rw [hext, List.append_assoc]
      | done emitted result st2 =>
          rw [h] at hext
          dsimp only [StepOut.state] at hext
          exact ⟨ext, hext⟩
      | fail emitted e st2 =>
          rw [h] at hext
          dsimp only [StepOut.state] at hext
          exact ⟨ext, hext⟩

/-- Every member of a `join` is an infix of it. -/
theorem mem_infix_joinSep (sep : String) {x : String} {l : List String}
    (hx : x ∈ l) : x.data <:+: (joinSep sep l).data := by
  induction l with
  | nil => cases hx
  | cons y rest ih =>
      match rest with
      | [] =>
          have : x = y := by simpa using hx
          subst this
          exact List.infix_refl x.data
      | z :: rest2 =>
          rcases List.mem_cons.mp hx with h | h
          · subst h
            rw [joinSep, strData_append, strData_append]
            exact ⟨[], (sep.data ++ (joinSep sep (z :: rest2)).data),
              by simp [List.append_assoc]⟩
          · have := ih h
            rw [joinSep, strData_append, strData_append]
            obtain ⟨s, t, hst⟩ := this
            exact ⟨(y.data ++ sep.data) ++ s, t,
              by rw [← hst]; simp [List.append_assoc]⟩

theorem infix_append_right {α : Type} {l b : List α} (h : l <:+: b)
    (c : List α) : l <:+: b ++ c := by
  obtain ⟨s, t, hst⟩ := h
  exact ⟨s, t ++ c, by rw [← hst]; simp⟩

theorem infix_append_left {α : Type} (a : List α) {l b : List α}
    (h : l <:+: b) : l <:+: a ++ b := by
  obtain ⟨s, t, hst⟩ := h
  exact ⟨a ++ s, t, by rw [← hst]; simp⟩

/-- The steps emitted during an iteration outcome. -/
def StepOut.emitted : StepOut → List ExecutionStep
  | .next em _ => em
  | .done em _ _ => em
  | .fail em _ _ => em

def StepOut.isNext : StepOut → Bool
  | .next _ _ => true
  | _ => false

/-- Every Observation step of one iteration is numbered with that
iteration. -/
theorem runToolCalls_number (toolExec : String → Json → Except String String)
    (iteration : Nat) (agentId : Option String) (total : Nat) :
    ∀ (tcs : List ToolCall) (idx : Nat),
      ∀ s ∈ (runToolCalls toolExec iteration agentId total idx tcs).1,
        s.step_number = iteration := by
  intro tcs
  induction tcs with
  | nil => intro idx s hs; simp [runToolCalls] at hs
  | cons tc rest ih =>
      intro idx s hs
      simp only [runToolCalls] at hs
      rcases List.mem_cons.mp hs with h | h
      · rw [h]; rfl
      · exact ih (idx + 1) s h

theorem runToolCalls_length (toolExec : String → Json → Except String String)
    (iteration : Nat) (agentId : Option String) (total : Nat) :
    ∀ (tcs : List ToolCall) (idx : Nat),
      (runToolCalls toolExec iteration agentId total idx tcs).1.length
        = tcs.length := by
  intro tcs
  induction tcs with
  | nil => intro idx; rfl
  | cons tc rest ih =>
      intro idx
      simp only [runToolCalls, List.length_cons]
      rw [ih (idx + 1)]

/-- Each Observation step carries its tool call and its observation
(result text and error), in call order; and the collected observation
texts are the formatted observations of the calls, in order. -/
theorem runToolCalls_proj (toolExec : String → Json → Except String String)
    (iteration : Nat) (agentId : Option String) (total : Nat) :
    ∀ (tcs : List ToolCall) (idx : Nat),
      (runToolCalls toolExec iteration agentId total idx tcs).1.map
          (fun s => (s.action, s.observation)) =
        tcs.map (fun tc => (some (ToolAction.mk tc.name tc.arguments),
          some (ToolObservation.mk
            (Json.str (formatObservation tc (execCall toolExec tc).1
              (execCall toolExec tc).2))
            (execCall toolExec tc).2))) ∧
      (runToolCalls toolExec iteration agentId total idx tcs).2 =
        tcs.map (fun tc => formatObservation tc (execCall toolExec tc).1
          (execCall toolExec tc).2) := by
  intro tcs
  induction tcs with
  | nil => intro idx; exact ⟨rfl, rfl⟩
  | cons tc rest ih =>
      intro idx
      obtain ⟨ih1, ih2⟩ := ih (idx + 1)
      constructor
      · simp only [runToolCalls, List.map_cons, obsStep]
        rw [ih1]
      · simp only [runToolCalls, List.map_cons]
        rw [ih2]

/-- Every step emitted during one iteration is numbered with that
iteration. -/
theorem reactStep_emitted_number (userMessage : String)
    (toolExec : String → Json → Except String String)
    (agentId : Option String) (iteration : Nat) (st : LoopState) :
    ∀ s ∈ (reactStep userMessage toolExec agentId iteration st).emitted,
      s.step_number = iteration := by
  obtain ⟨msgs, hist, trace⟩ := st
  match trace with
  | [] => intro s hs; simp [reactStep, StepOut.emitted] at hs
  | .error e :: trace1 =>
      intro s hs; simp [reactStep, StepOut.emitted] at hs
  | .ok reasoningResponse :: trace1 =>
      rw [reactStep]
      dsimp only
      split
      · intro s hs; simp [StepOut.emitted] at hs
      · match trace1 with
        | [] => intro s hs; simp [StepOut.emitted] at hs
        | .error e :: trace2 =>
            intro s hs; simp [StepOut.emitted] at hs
        | .ok actionResponse :: trace2 =>
            dsimp only
            match hc : actionResponse.tool_calls with
            | some (firstToolCall :: restCalls) =>
                dsimp only
                split
                · intro s hs; simp [StepOut.emitted] at hs
                · intro s hs
                  dsimp only [StepOut.emitted] at hs
                  rcases List.mem_cons.mp hs with h | h
                  · rw [h]
                  · exact runToolCalls_number toolExec iteration agentId
                      _ _ 0 s h
            | some [] => intro s hs; simp [StepOut.emitted] at hs
            | none => intro s hs; simp [StepOut.emitted] at hs

/-- A continuing iteration emits at least its Action step. -/
theorem reactStep_next_emitted_ne_nil (userMessage : String)
    (toolExec : String → Json → Except String String)
    (agentId : Option String) (iteration : Nat) (st : LoopState)
    {em : List ExecutionStep} {st2 : LoopState}
    (h : reactStep userMessage toolExec agentId iteration st =
      .next em st2) : em ≠ [] := by
  obtain ⟨msgs, hist, trace⟩ := st
  match trace with
  | [] => simp [reactStep] at h
  | .error e :: trace1 => simp [reactStep] at h
  | .ok reasoningResponse :: trace1 =>
      rw [reactStep] at h
      dsimp only at h
      split at h
      · simp at h
      · match trace1 with
        | [] => simp at h
        | .error e :: trace2 => simp at h
        | .ok actionResponse :: trace2 =>
            dsimp only at h
            match hc : actionResponse.tool_calls with
            | some (firstToolCall :: restCalls) =>
                rw [hc] at h
                dsimp only at h
                split at h
                · simp at h
                · obtain ⟨h1, h2⟩ := StepOut.next.injEq .. ▸ h
                  rw [← h1]
                  simp
            | some [] => rw [hc] at h; simp at h
            | none => rw [hc] at h; simp at h

theorem chain'_le_of_const {l : List ExecutionStep} {k : Nat}
    (h : ∀ s ∈ l, s.step_number = k) :
    List.Chain' (fun a b => a.step_number ≤ b.step_number) l := by
  induction l with
  | nil => exact List.chain'_nil
  | cons a t ih =>
      cases t with
      | nil => simp
      | cons b t2 =>
          refine List.chain'_cons.mpr ⟨?_, ?_⟩
          · rw [h a (by simp), h b (by simp)]
          · exact ih (fun s hs => h s (List.mem_cons_of_mem a hs))

/-- Step numbers over the remaining loop: every step of
`execLoop fuel iteration st` is numbered in `[iteration, iteration +
fuel)`, numbers are non-decreasing in emission order, and the first
emitted step (if any) is numbered `iteration`. -/
theorem execLoop_steps (cfg : AgentConfig) (userMessage : String)
    (toolExec : String → Json → Except String String)
    (agentId : Option String) :
    ∀ (fuel iteration : Nat) (st : LoopState),
      (∀ s ∈ (execLoop cfg userMessage toolExec agentId fuel iteration
          st).steps,
        iteration ≤ s.step_number ∧ s.step_number < iteration + fuel) ∧
      List.Chain' (fun a b => a.step_number ≤ b.step_number)
        (execLoop cfg userMessage toolExec agentId fuel iteration st).steps ∧
      (∀ s ∈ (execLoop cfg userMessage toolExec agentId fuel iteration
          st).steps.head?,
        s.step_number = iteration) := by
  intro fuel
  induction fuel with
  | zero =>
      intro iteration st
      refine ⟨?_, ?_, ?_⟩ <;> simp [execLoop]
  | succ n ih =>
      intro iteration st
      rw [execLoop]
      cases h : reactStep userMessage toolExec agentId iteration st with
      | next emitted st2 =>
          have hnum : ∀ s ∈ emitted, s.step_number = iteration := by
            have := reactStep_emitted_number userMessage toolExec agentId
              iteration st
            rw [h] at this
            exact this
          have hne : emitted ≠ [] :=
            reactStep_next_emitted_ne_nil userMessage toolExec agentId
              iteration st h
          obtain ⟨hb, hch, hhd⟩ := ih (iteration + 1) st2
          dsimp only
          refine ⟨?_, ?_, ?_⟩
          · intro s hs
            rcases List.mem_append.mp hs with hm | hm
            · rw [hnum s hm]; omega
            · obtain ⟨h1, h2⟩ := hb s hm
              omega
          · rw [List.chain'_append]
            refine ⟨chain'_le_of_const hnum, hch, ?_⟩
            intro x hx y hy
            have hxm : x ∈ emitted := List.mem_of_mem_getLast? hx
            rw [hnum x hxm, hhd y hy]
            omega
          · intro s hs
            match emitted, hne, hnum, hs with
            | a :: t, _, hnum, hs =>
                simp only [List.cons_append, List.head?_cons,
                  Option.mem_def, Option.some.injEq] at hs
                rw [← hs]
                exact hnum a (by simp)
      | done emitted result st2 =>
          have hnum : ∀ s ∈ emitted, s.step_number = iteration := by
            have := reactStep_emitted_number userMessage toolExec agentId
              iteration st
            rw [h] at this
            exact this
          dsimp only
          refine ⟨?_, chain'_le_of_const hnum, ?_⟩
          · intro s hs
            rw [hnum s hs]
            omega
          · intro s hs
            have : s ∈ emitted := by
              cases emitted with
              | nil => simp at hs
              | cons a t =>
                  simp only [List.head?_cons, Option.mem_def,
                    Option.some.injEq] at hs
                  rw [← hs]; simp
            exact hnum s this
      | fail emitted e st2 =>
          have hnum : ∀ s ∈ emitted, s.step_number = iteration := by
            have := reactStep_emitted_number userMessage toolExec agentId
              iteration st
            rw [h] at this
            exact this
          dsimp only
          refine ⟨?_, chain'_le_of_const hnum, ?_⟩
          · intro s hs
            rw [hnum s hs]
            omega
          · intro s hs
            have : s ∈ emitted := by
              cases emitted with
              | nil => simp at hs
              | cons a t =>
                  simp only [List.head?_cons, Option.mem_def,
                    Option.some.injEq] at hs
                  rw [← hs]; simp
            exact hnum s this

/-! ## Claim C1: step numbering -/

/-- C1 (amended): over one execution the emitted step numbers equal the
iteration index, so they are non-decreasing, start at one (when any step
is emitted at all) and never exceed `max_iterations`; they are not
strictly increasing — the Action step and the Observation steps of one
iteration share its number. -/
theorem c1_step_numbers_amended (cfg : AgentConfig) (userMessage : String)
    (availableTools : List ToolDefinition)
    (toolExec : String → Json → Except String String)
    (agentId : Option String)
    (llmTrace : List (Except String LLMResponse)) :
    List.Chain' (fun a b => a.step_number ≤ b.step_number)
      (execute cfg userMessage availableTools toolExec agentId
        llmTrace).steps ∧
    (∀ s ∈ (execute cfg userMessage availableTools toolExec agentId
        llmTrace).steps,
      1 ≤ s.step_number ∧ s.step_number ≤ cfg.max_iterations) ∧
    (∀ s ∈ (execute cfg userMessage availableTools toolExec agentId
        llmTrace).steps.head?,
      s.step_number = 1) := by
  obtain ⟨hb, hch, hhd⟩ := execLoop_steps cfg userMessage toolExec agentId
    cfg.max_iterations 1
    { messages := [⟨"system", interpolatePrompt cfg.system_prompt
        (toolsListing (availableTools.filter
          (fun t => cfg.tools.contains t.id)))⟩, ⟨"user", userMessage⟩],
      history := [], llmTrace := llmTrace }
  refine ⟨hch, ?_, hhd⟩
  intro s hs
  obtain ⟨h1, h2⟩ := hb s hs
  omega

/-- The repeated tool call of the step-numbering counterexample. -/
def exMouseCall : ToolCall :=
  ⟨"mouse_move", Json.obj [("x", Json.num 0), ("y", Json.num 0)]⟩

/-- C1 counterexample: one iteration with one executed tool call emits
two steps (the Action step and its Observation step) that both carry
step number 1 — the emitted numbers are not strictly increasing and a
number is emitted twice. -/
theorem c1_step_numbers_counterexample :
    (execute ⟨"p", "m", 1, [], false, none⟩ "hi" []
        (fun _ _ => .ok "done") none
        [.ok ⟨"think", none⟩,
         .ok ⟨"act", some [exMouseCall]⟩]).steps.map
      (fun s => s.step_number) = [1, 1] ∧
    ¬ List.Chain' (fun a b => a.step_number < b.step_number)
      (execute ⟨"p", "m", 1, [], false, none⟩ "hi" []
        (fun _ _ => .ok "done") none
        [.ok ⟨"think", none⟩,
         .ok ⟨"act", some [exMouseCall]⟩]).steps := by
  refine ⟨by decide, ?_⟩
  intro hch
  have h1 : (execute ⟨"p", "m", 1, [], false, none⟩ "hi" []
      (fun _ _ => .ok "done") none
      [.ok ⟨"think", none⟩,
       .ok ⟨"act", some [exMouseCall]⟩]).steps.map
      (fun s => s.step_number) = [1, 1] := by decide
  have h3 : List.Chain' (fun a b : Nat => a < b)
      ((execute ⟨"p", "m", 1, [], false, none⟩ "hi" []
        (fun _ _ => .ok "done") none
        [.ok ⟨"think", none⟩,
         .ok ⟨"act", some [exMouseCall]⟩]).steps.map
        (fun s => s.step_number)) :=
    (List.chain'_map (fun s : ExecutionStep => s.step_number)).mpr hch
  rw [h1] at h3
  exact absurd (List.chain'_cons.mp h3).1 (by omega)

/-! ## Claim C6: the iteration bound and the exhaustion result -/

/-- One iteration reads at most two LLM responses (the reasoning call
and the action call). -/
theorem reactStep_trace_consumption (userMessage : String)
    (toolExec : String → Json → Except String String)
    (agentId : Option String) (iteration : Nat) (st : LoopState) :
    st.llmTrace.length ≤
      (reactStep userMessage toolExec agentId iteration
        st).state.llmTrace.length + 2 := by
  obtain ⟨msgs, hist, trace⟩ := st
  match trace with
  | [] => simp [reactStep, StepOut.state]
  | .error e :: trace1 => simp [reactStep, StepOut.state]
  | .ok reasoningResponse :: trace1 =>
      rw [reactStep]
      dsimp only
      split
      · simp [StepOut.state]
      · match trace1 with
        | [] => simp [StepOut.state]
        | .error e :: trace2 => simp [StepOut.state]
        | .ok actionResponse :: trace2 =>
            dsimp only
            match hc : actionResponse.tool_calls with
            | some (firstToolCall :: restCalls) =>
                dsimp only
                split
                · simp [StepOut.state]
                · simp [StepOut.state]
            | some [] => simp [StepOut.state]
            | none => simp [StepOut.state]

/-- The loop reads at most `2 · fuel` LLM responses. -/
theorem execLoop_trace_consumption (cfg : AgentConfig)
    (userMessage : String)
    (toolExec : String → Json → Except String String)
    (agentId : Option String) :
    ∀ (fuel iteration : Nat) (st : LoopState),
      st.llmTrace.length ≤
        (execLoop cfg userMessage toolExec agentId fuel iteration
          st).llmRest.length + 2 * fuel := by
  intro fuel
  induction fuel with
  | zero => intro iteration st; simp [execLoop]
  | succ n ih =>
      intro iteration st
      rw [execLoop]
      have hcons := reactStep_trace_consumption userMessage toolExec
        agentId iteration st
      cases h : reactStep userMessage toolExec agentId iteration st with
      | next emitted st2 =>
          rw [h] at hcons
          dsimp only [StepOut.state] at hcons
          have := ih (iteration + 1) st2
          dsimp only
          omega
      | done emitted result st2 =>
          rw [h] at hcons
          dsimp only [StepOut.state] at hcons
          dsimp only
          omega
      | fail emitted e st2 =>
          rw [h] at hcons
          dsimp only [StepOut.state] at hcons
          dsimp only
          omega

/-- When the loop exhausts its fuel, the result is the max-iterations
string built from the final conversation buffer. -/
theorem execLoop_exhausted (cfg : AgentConfig) (userMessage : String)
    (toolExec : String → Json → Except String String)
    (agentId : Option String) :
    ∀ (fuel iteration : Nat) (st : LoopState),
      (execLoop cfg userMessage toolExec agentId fuel iteration
        st).exhausted = true →
      (execLoop cfg userMessage toolExec agentId fuel iteration
        st).result = .ok (maxIterMsg cfg.max_iterations
          (execLoop cfg userMessage toolExec agentId fuel iteration
            st).messages) := by
  intro fuel
  induction fuel with
  | zero => intro iteration st _; rfl
  | succ n ih =>
      intro iteration st hex
      rw [execLoop] at hex ⊢
      cases h : reactStep userMessage toolExec agentId iteration st with
      | next emitted st2 =>
          rw [h] at hex
          dsimp only at hex ⊢
          exact ih (iteration + 1) st2 hex
      | done emitted result st2 =>
          rw [h] at hex
          simp at hex
      | fail emitted e st2 =>
          rw [h] at hex
          simp at hex

/-- C6: the executor performs at most `max_iterations` iterations (its
steps are numbered at most `max_iterations` and it reads at most
`2 · max_iterations` LLM responses), and when the loop runs through all
iterations without terminating it returns, as a normal result, the
string naming the `max_iterations` limit and quoting the content of the
last message of the conversation buffer. -/
theorem c6_iteration_bound (cfg : AgentConfig) (userMessage : String)
    (availableTools : List ToolDefinition)
    (toolExec : String → Json → Except String String)
    (agentId : Option String)
    (llmTrace : List (Except String LLMResponse)) :
    (∀ s ∈ (execute cfg userMessage availableTools toolExec agentId
        llmTrace).steps, s.step_number ≤ cfg.max_iterations) ∧
    llmTrace.length ≤ (execute cfg userMessage availableTools toolExec
      agentId llmTrace).llmRest.length + 2 * cfg.max_iterations ∧
    ((execute cfg userMessage availableTools toolExec agentId
        llmTrace).exhausted = true →
      (execute cfg userMessage availableTools toolExec agentId
        llmTrace).result =
      .ok ("Max iterations (" ++ toString cfg.max_iterations ++
        ") reached without completing the goal. The task may require a different approach or additional tools. Last thought: '"
        ++ (match (execute cfg userMessage availableTools toolExec agentId
              llmTrace).messages.getLast? with
            | some m => m.content
            | none => "None") ++ "'")) := by
  have hst : execute cfg userMessage availableTools toolExec agentId
      llmTrace =
    execLoop cfg userMessage toolExec agentId cfg.max_iterations 1
      { messages := [⟨"system", interpolatePrompt cfg.system_prompt
          (toolsListing (availableTools.filter
            (fun t => cfg.tools.contains t.id)))⟩, ⟨"user", userMessage⟩],
        history := [], llmTrace := llmTrace } := rfl
  rw [hst]
  refine ⟨?_, ?_, ?_⟩
  · intro s hs
    have h := (execLoop_steps cfg userMessage toolExec agentId
      cfg.max_iterations 1
      { messages := [⟨"system", interpolatePrompt cfg.system_prompt
          (toolsListing (availableTools.filter
            (fun t => cfg.tools.contains t.id)))⟩, ⟨"user", userMessage⟩],
        history := [], llmTrace := llmTrace }).1 s hs
    omega
  · exact execLoop_trace_consumption cfg userMessage toolExec agentId
      cfg.max_iterations 1
      { messages := [⟨"system", interpolatePrompt cfg.system_prompt
          (toolsListing (availableTools.filter
            (fun t => cfg.tools.contains t.id)))⟩, ⟨"user", userMessage⟩],
        history := [], llmTrace := llmTrace }
  · intro hex
    exact execLoop_exhausted cfg userMessage toolExec agentId
      cfg.max_iterations 1
      { messages := [⟨"system", interpolatePrompt cfg.system_prompt
          (toolsListing (availableTools.filter
            (fun t => cfg.tools.contains t.id)))⟩, ⟨"user", userMessage⟩],
        history := [], llmTrace := llmTrace } hex

/-- C6 witness: with `max_iterations = 1` and one full non-terminating
iteration, the executor exhausts and reports the limit with the last
buffered message. -/
theorem c6_iteration_bound_witness :
    (execute ⟨"p", "m", 1, [], false, none⟩ "hi" []
        (fun _ _ => .ok "done") none
        [.ok ⟨"think", none⟩,
         .ok ⟨"act", some [exMouseCall]⟩]).exhausted = true ∧
    (execute ⟨"p", "m", 1, [], false, none⟩ "hi" []
        (fun _ _ => .ok "done") none
        [.ok ⟨"think", none⟩,
         .ok ⟨"act", some [exMouseCall]⟩]).result =
      .ok (maxIterMsg 1
        (execute ⟨"p", "m", 1, [], false, none⟩ "hi" []
          (fun _ _ => .ok "done") none
          [.ok ⟨"think", none⟩,
           .ok ⟨"act", some [exMouseCall]⟩]).messages) := by
  refine ⟨by decide, ?_⟩
  exact (c6_iteration_bound ⟨"p", "m", 1, [], false, none⟩ "hi" []
    (fun _ _ => .ok "done") none
    [.ok ⟨"think", none⟩,
     .ok ⟨"act", some [exMouseCall]⟩]).2.2 (by decide)

/-! ## Claim C4: loop detection -/

/-- The loop-abort result begins with the documented sentence. -/
theorem loopAbortMsg_isPrefix (tc : ToolCall) :
    ("I attempted to call " ++ tc.name ++
      " multiple times with the same parameters but couldn't make progress").data
      <+: (loopAbortMsg tc).data := by
  have hsplit : (" multiple times with the same parameters but couldn't make progress. The task may require different tools or a different approach. Last attempted: "
      : String) =
      " multiple times with the same parameters but couldn't make progress"
      ++ ". The task may require different tools or a different approach. Last attempted: " := by
    decide
  refine ⟨(". The task may require different tools or a different approach. Last attempted: "
    ++ tc.name ++ " with " ++ tc.arguments.toStr).data, ?_⟩
  simp only [loopAbortMsg, hsplit, strData_append, List.append_assoc]

/-- C4 (amended): when the signature built from the first tool call of
an action response already occurs at least twice in the loop-detection
history, the executor returns — as a normal, non-error result — the
loop-abort string (which begins `I attempted to call <tool> multiple
times with the same parameters but couldn't make progress`), emits no
step and executes nothing for that response: the outcome is `.done []`
and is therefore independent of the tool executor's behaviour.  (The
blanket reading of the claim — the same signature executes at most
twice per execution — fails: a signature in non-first position is
neither counted nor checked, see the counterexample.) -/
theorem c4_loop_abort_amended (userMessage : String)
    (toolExec : String → Json → Except String String)
    (agentId : Option String) (iteration : Nat) (st : LoopState)
    (reasoningResponse actionResponse : LLMResponse)
    (trace2 : List (Except String LLMResponse))
    (firstToolCall : ToolCall) (restCalls : List ToolCall)
    (hTrace : st.llmTrace =
      .ok reasoningResponse :: .ok actionResponse :: trace2)
    (hNoGoal : containsSub (rustToUpper (rustTrim
      reasoningResponse.response)) "GOAL_COMPLETE" = false)
    (hCalls : actionResponse.tool_calls =
      some (firstToolCall :: restCalls))
    (hLoop : is_loop_detected st.history
      (ToolCallSignature.new firstToolCall.name
        firstToolCall.arguments) = true) :
    reactStep userMessage toolExec agentId iteration st =
      .done [] (loopAbortMsg firstToolCall)
        { messages := st.messages, history := st.history,
          llmTrace := trace2 } ∧
    ("I attempted to call " ++ firstToolCall.name ++
      " multiple times with the same parameters but couldn't make progress").data
      <+: (loopAbortMsg firstToolCall).data := by
  refine ⟨?_, loopAbortMsg_isPrefix firstToolCall⟩
  obtain ⟨msgs, hist, trace⟩ := st
  subst hTrace
  rw [reactStep]
  dsimp only
  simp only [hNoGoal, Bool.false_eq_true, if_false, hCalls]
  simp only [hLoop, if_true]

/-- Trace for the C4 counterexample: three iterations whose action
responses each carry two tool calls — a fresh first call and the same
second call `s`. -/
def exSecondCall : ToolCall := ⟨"s", Json.null⟩

def exTraceMulti : List (Except String LLMResponse) :=
  [.ok ⟨"t1", none⟩, .ok ⟨"a1", some [⟨"x1", Json.null⟩, exSecondCall]⟩,
   .ok ⟨"t2", none⟩, .ok ⟨"a2", some [⟨"x2", Json.null⟩, exSecondCall]⟩,
   .ok ⟨"t3", none⟩, .ok ⟨"a3", some [⟨"x3", Json.null⟩, exSecondCall]⟩]

/-- C4 counterexample: the identical call `s` (signature `("s", "null")`)
is executed in all three iterations — three executions of one signature
— yet no loop-abort is returned: the execution ends with the
max-iterations result, because only the first tool call of each response
is checked against the history.  The step list shows each iteration
executing `x<i>` and then `s`. -/
theorem c4_loop_abort_counterexample :
    (execute ⟨"p", "m", 3, [], false, none⟩ "hi" []
        (fun _ _ => .ok "ok") none exTraceMulti).steps.map
      (fun s => (s.action.map (fun a => a.tool), s.observation.isSome)) =
      [(some "x1", false), (some "x1", true), (some "s", true),
       (some "x2", false), (some "x2", true), (some "s", true),
       (some "x3", false), (some "x3", true), (some "s", true)] ∧
    (execute ⟨"p", "m", 3, [], false, none⟩ "hi" []
        (fun _ _ => .ok "ok") none exTraceMulti).result =
      .ok (maxIterMsg 3
        (execute ⟨"p", "m", 3, [], false, none⟩ "hi" []
          (fun _ _ => .ok "ok") none exTraceMulti).messages) ∧
    ("I attempted to call" : String).data.isPrefixOf
      (maxIterMsg 3
        (execute ⟨"p", "m", 3, [], false, none⟩ "hi" []
          (fun _ _ => .ok "ok") none exTraceMulti).messages).data
      = false := by
  refine ⟨?_, ?_, ?_⟩
  · set_option maxRecDepth 10000 in decide
  · set_option maxRecDepth 10000 in rfl
  · set_option maxRecDepth 10000 in decide

/-- History and trace for the C4 witness: the signature of
`mouse_move {x:0,y:0}` already occurs twice. -/
def exStLoop : LoopState :=
  { messages := [⟨"system", "s"⟩, ⟨"user", "hi"⟩],
    history := [ToolCallSignature.new exMouseCall.name exMouseCall.arguments,
                ToolCallSignature.new exMouseCall.name exMouseCall.arguments],
    llmTrace := [.ok ⟨"think", none⟩,
                 .ok ⟨"act", some [exMouseCall]⟩] }

/-- C4 witness: the third identical `mouse_move` call is not executed;
the iteration returns the loop-abort string. -/
theorem c4_loop_abort_amended_witness :
    reactStep "hi" (fun _ _ => .ok "done") none 3 exStLoop =
      .done [] (loopAbortMsg exMouseCall)
        { messages := exStLoop.messages, history := exStLoop.history,
          llmTrace := [] } := by
  have h := (c4_loop_abort_amended "hi" (fun _ _ => .ok "done") none 3
    exStLoop ⟨"think", none⟩ ⟨"act", some [exMouseCall]⟩ []
    exMouseCall [] rfl (by decide) rfl (by decide)).1
  exact h

/-! ## Claim C9: tool errors are recovered as observations -/

/-- C9: when an action response carries tool calls and no loop is
detected, the iteration continues (`.next`) whatever the tool executor
returns: each Observation step carries its tool call and its
observation (with the error recorded on failure), and one user message
appending the joined observations plus the reflect instruction is added
to the buffer.  A failing call produces the observation
`[FAILED] Tool '<name>': Failed\nDetails: Error executing tool
'<name>': <e>` with that same text recorded as the error; a successful
call produces `[SUCCESS] Tool '<name>': Succeeded\nDetails: <result>`
with no error. -/
theorem c9_tool_error_recovery (userMessage : String)
    (toolExec : String → Json → Except String String)
    (agentId : Option String) (iteration : Nat) (st : LoopState)
    (reasoningResponse actionResponse : LLMResponse)
    (trace2 : List (Except String LLMResponse))
    (firstToolCall : ToolCall) (restCalls : List ToolCall)
    (hTrace : st.llmTrace =
      .ok reasoningResponse :: .ok actionResponse :: trace2)
    (hNoGoal : containsSub (rustToUpper (rustTrim
      reasoningResponse.response)) "GOAL_COMPLETE" = false)
    (hCalls : actionResponse.tool_calls =
      some (firstToolCall :: restCalls))
    (hNoLoop : is_loop_detected st.history
      (ToolCallSignature.new firstToolCall.name
        firstToolCall.arguments) = false) :
    (∃ emitted st2,
      reactStep userMessage toolExec agentId iteration st =
        .next emitted st2 ∧
      emitted.length = (firstToolCall :: restCalls).length + 1 ∧
      emitted.tail.map (fun s => (s.action, s.observation)) =
        (firstToolCall :: restCalls).map (fun tc =>
          (some (ToolAction.mk tc.name tc.arguments),
           some (ToolObservation.mk
             (Json.str (formatObservation tc (execCall toolExec tc).1
               (execCall toolExec tc).2))
             (execCall toolExec tc).2))) ∧
      st2.messages = st.messages ++
        [⟨"assistant", actionResponse.response⟩,
         ⟨"user", "Latest Observations:\n" ++
           joinSep "\n\n" ((firstToolCall :: restCalls).map
             (fun tc => formatObservation tc (execCall toolExec tc).1
               (execCall toolExec tc).2)) ++
           "\n\nReflect on these results and decide the next action to progress toward the goal. If errors occurred, adapt your approach."⟩] ∧
      st2.llmTrace = trace2) ∧
    (∀ (tc : ToolCall) (e : String),
      toolExec tc.name tc.arguments = .error e →
      execCall toolExec tc =
        ("Error executing tool '" ++ tc.name ++ "': " ++ e,
         some ("Error executing tool '" ++ tc.name ++ "': " ++ e)) ∧
      formatObservation tc (execCall toolExec tc).1
          (execCall toolExec tc).2 =
        "[FAILED] Tool '" ++ tc.name ++
          "': Failed\nDetails: Error executing tool '" ++ tc.name ++
          "': " ++ e) ∧
    (∀ (tc : ToolCall) (r : String),
      toolExec tc.name tc.arguments = .ok r →
      execCall toolExec tc = (r, none) ∧
      formatObservation tc (execCall toolExec tc).1
          (execCall toolExec tc).2 =
        "[SUCCESS] Tool '" ++ tc.name ++ "': Succeeded\nDetails: " ++ r) := by
  refine ⟨?_, ?_, ?_⟩
  · obtain ⟨msgs, hist, trace⟩ := st
    subst hTrace
    refine ⟨({ step_number := iteration,
               thought :=
                 if (rustTrim reasoningResponse.response).isEmpty = true
                 then "Processing user request: " ++ userMessage
                 else rustTrim reasoningResponse.response,
               action := some ⟨firstToolCall.name, firstToolCall.arguments⟩,
               observation := none,
               agent_id := agentId } : ExecutionStep) ::
          (runToolCalls toolExec iteration agentId
            (firstToolCall :: restCalls).length 0
            (firstToolCall :: restCalls)).1,
      ⟨msgs ++ [⟨"assistant", actionResponse.response⟩] ++
          [⟨"user", observationsMsg (runToolCalls toolExec iteration
            agentId (firstToolCall :: restCalls).length 0
            (firstToolCall :: restCalls)).2⟩],
        if 10 < (hist ++ [ToolCallSignature.new firstToolCall.name
            firstToolCall.arguments]).length
          then (hist ++ [ToolCallSignature.new firstToolCall.name
            firstToolCall.arguments]).drop 1
          else hist ++ [ToolCallSignature.new firstToolCall.name
            firstToolCall.arguments],
        trace2⟩, ?_, ?_, ?_, ?_, ?_⟩
    · rw [reactStep]
      dsimp only
      simp only [hNoGoal, Bool.false_eq_true, if_false, hCalls]
      simp only [hNoLoop, Bool.false_eq_true, if_false]
    · simp [runToolCalls_length]
    · simp only [List.tail_cons]
      exact (runToolCalls_proj toolExec iteration agentId
        (firstToolCall :: restCalls).length (firstToolCall :: restCalls)
        0).1
    · dsimp only
      rw [(runToolCalls_proj toolExec iteration agentId
        (firstToolCall :: restCalls).length (firstToolCall :: restCalls)
        0).2]
      simp [observationsMsg, List.append_assoc]
    · rfl
  · intro tc e h
    refine ⟨by simp [execCall, h], ?_⟩
    simp only [execCall, h]
    apply String.ext
    simp only [formatObservation, Option.isSome_some, if_true,
      String.data_append, List.append_assoc, List.cons_append,
      List.nil_append]
  · intro tc r h
    refine ⟨by simp [execCall, h], ?_⟩
    simp only [execCall, h]
    apply String.ext
    simp only [formatObservation, Option.isSome_none, Bool.false_eq_true,
      if_false, String.data_append, List.append_assoc, List.cons_append,
      List.nil_append]

/-- A tool executor that always fails. -/
def exFailExec : String → Json → Except String String :=
  fun _ _ => .error "boom"

def exStNine : LoopState :=
  { messages := [⟨"system", "s"⟩, ⟨"user", "hi"⟩], history := [],
    llmTrace := [.ok ⟨"think", none⟩,
                 .ok ⟨"act", some [exMouseCall]⟩] }

/-- C9 witness: a failing `mouse_move` call still lets the iteration
continue, with the documented failure observation. -/
theorem c9_tool_error_recovery_witness :
    (reactStep "hi" exFailExec none 1 exStNine).isNext = true ∧
    formatObservation exMouseCall (execCall exFailExec exMouseCall).1
        (execCall exFailExec exMouseCall).2 =
      "[FAILED] Tool 'mouse_move': Failed\nDetails: Error executing tool 'mouse_move': boom" := by
  have h := c9_tool_error_recovery "hi" exFailExec none 1 exStNine
    ⟨"think", none⟩ ⟨"act", some [exMouseCall]⟩ [] exMouseCall []
    rfl (by decide) rfl (by decide)
  obtain ⟨⟨emitted, st2, heq, -, -, -, -⟩, herr, -⟩ := h
  constructor
  · rw [heq]; rfl
  · have := (herr exMouseCall "boom" rfl).2
    rw [this]
    decide

/-! ## Claim C2: system-prompt interpolation -/

/-- C2 (amended): before any LLM call, the executor resolves the system
prompt by replacing `{tools}` with the newline-joined tools listing
`- <name> (<id>): <description>` over the enabled tools, and `{purpose}`
with the fixed text `"Execute user tasks using available tools"`; the
resolved prompt is the buffer's system message and is never modified
afterwards. -/
theorem c2_interpolation_amended (cfg : AgentConfig) (userMessage : String)
    (availableTools : List ToolDefinition)
    (toolExec : String → Json → Except String String)
    (agentId : Option String)
    (llmTrace : List (Except String LLMResponse)) :
    (execute cfg userMessage availableTools toolExec agentId
        llmTrace).messages.head? =
      some ⟨"system",
        rustReplace
          (rustReplace cfg.system_prompt "\x7btools\x7d"
            (joinSep "\n"
              ((availableTools.filter (fun t => cfg.tools.contains t.id)).map
                (fun t => "- " ++ t.name ++ " (" ++ t.id ++ "): " ++
                  t.description))))
          "\x7bpurpose\x7d" "Execute user tasks using available tools"⟩ := by
  obtain ⟨ext, hext⟩ := execLoop_messages_ext cfg userMessage toolExec agentId
    cfg.max_iterations 1
    { messages := [⟨"system", interpolatePrompt cfg.system_prompt
        (toolsListing (availableTools.filter
          (fun t => cfg.tools.contains t.id)))⟩, ⟨"user", userMessage⟩],
      history := [], llmTrace := llmTrace }
  have hexec : execute cfg userMessage availableTools toolExec agentId
      llmTrace =
    execLoop cfg userMessage toolExec agentId cfg.max_iterations 1
      { messages := [⟨"system", interpolatePrompt cfg.system_prompt
          (toolsListing (availableTools.filter
            (fun t => cfg.tools.contains t.id)))⟩, ⟨"user", userMessage⟩],
        history := [], llmTrace := llmTrace } := rfl
  rw [hexec, hext]
  rfl

/-- The delegated agent used by the C2 counterexample: its purpose text
differs from what the executor substitutes for `{purpose}`. -/
def exPoetAgent : Agent :=
  { id := "poet", name := "Poet", purpose := "Write short poems",
    system_prompt := "\x7bpurpose\x7d", tools := [], model_id := "m",
    max_iterations := 1, is_locked := false,
    separate_reasoning_model := false, reasoning_model_id := none,
    created_at := "", updated_at := "" }

/-- C2 counterexample: for an agent whose purpose is `"Write short
poems"` and whose prompt template is just `{purpose}`, the resolved
system prompt is the fixed text `"Execute user tasks using available
tools"`, not the agent's purpose text. -/
theorem c2_interpolation_counterexample :
    (execute (agentToConfig exPoetAgent) "hi" []
        (fun _ _ => .ok "") none []).messages.head? =
      some ⟨"system", "Execute user tasks using available tools"⟩ ∧
    exPoetAgent.purpose = "Write short poems" ∧
    ("Execute user tasks using available tools" : String) ≠
      "Write short poems" := by
  refine ⟨by decide, rfl, by decide⟩

/-! ## Claim C7: unknown-tool validation of chat requests -/

/-- C7: a `chat_request` whose agent lists a tool identifier missing
from the tool table is answered by a single `chat_response` frame with
`error = true` whose content carries every unknown identifier and every
available identifier, and the executor is not invoked (the reply is the
same whatever executor runner is supplied). -/
theorem c7_unknown_tools_rejected (availableTools : List ToolDefinition)
    (r1 r2 : AgentConfig → String → ExecDone) (userMessage : String)
    (cfg : AgentConfig)
    (hinvalid : cfg.tools.filter
      (fun t => !(availableTools.map (fun t => t.id)).contains t) ≠ []) :
    handleChatRequest availableTools r1 userMessage (some cfg) =
      [Json.obj [
        ("content", Json.str ("Error: Agent '" ++ cfg.model_id ++
          "' references unknown tools: " ++
          joinSep ", " (cfg.tools.filter
            (fun t => !(availableTools.map (fun t => t.id)).contains t)) ++
          ". Available tools are: " ++
          joinSep ", " (availableTools.map (fun t => t.id)))),
        ("error", Json.bool true), ("type", Json.str "chat_response")]] ∧
    handleChatRequest availableTools r1 userMessage (some cfg) =
      handleChatRequest availableTools r2 userMessage (some cfg) ∧
    (∀ t ∈ cfg.tools.filter
        (fun t => !(availableTools.map (fun t => t.id)).contains t),
      t.data <:+: ("Error: Agent '" ++ cfg.model_id ++
        "' references unknown tools: " ++
        joinSep ", " (cfg.tools.filter
          (fun t => !(availableTools.map (fun t => t.id)).contains t)) ++
        ". Available tools are: " ++
        joinSep ", " (availableTools.map (fun t => t.id))).data) ∧
    (∀ t ∈ availableTools.map (fun t => t.id),
      t.data <:+: ("Error: Agent '" ++ cfg.model_id ++
        "' references unknown tools: " ++
        joinSep ", " (cfg.tools.filter
          (fun t => !(availableTools.map (fun t => t.id)).contains t)) ++
        ". Available tools are: " ++
        joinSep ", " (availableTools.map (fun t => t.id))).data) := by
  have hv : (cfg.tools.filter
      (fun t => !(availableTools.map (fun t => t.id)).contains t)).isEmpty
      = false := by
    cases hc : (cfg.tools.filter
        (fun t => !(availableTools.map (fun t => t.id)).contains t)) with
    | nil => exact absurd hc hinvalid
    | cons a l => rfl
  refine ⟨?_, ?_, ?_, ?_⟩
  · simp only [handleChatRequest, hv, Bool.not_false, if_true]
  · simp only [handleChatRequest, hv, Bool.not_false, if_true]
  · intro t ht
    have hj := mem_infix_joinSep ", " ht
    have h1 := infix_append_left
      ("Error: Agent '" ++ cfg.model_id ++
        "' references unknown tools: ").data hj
    have h2 := infix_append_right h1
      (". Available tools are: " ++
        joinSep ", " (availableTools.map (fun t => t.id))).data
    simpa [strData_append, List.append_assoc] using h2
  · intro t ht
    have hj := mem_infix_joinSep ", " ht
    have h1 := infix_append_left
      ("Error: Agent '" ++ cfg.model_id ++
        "' references unknown tools: " ++
        joinSep ", " (cfg.tools.filter
          (fun t => !(availableTools.map (fun t => t.id)).contains t)) ++
        ". Available tools are: ").data hj
    simpa [strData_append, List.append_assoc] using h1

/-- A concrete tool definition (`mouse_move` as in the tool table). -/
def exToolMouseMove : ToolDefinition :=
  { id := "mouse_move", name := "Mouse Move",
    description := "Move the mouse cursor to specified coordinates",
    category := "mouse", parameters := [], returns_observation := true }

/-- An agent configuration referencing a tool missing from the table. -/
def exCfgBadTools : AgentConfig :=
  { system_prompt := "p", model_id := "model-x", max_iterations := 3,
    tools := ["no_such_tool"], separate_reasoning_model := false,
    reasoning_model_id := none }

def exDoneStub : ExecDone :=
  { result := .ok "", steps := [], messages := [], llmRest := [],
    exhausted := false }

/-- C7 witness: the concrete `no_such_tool` request is rejected with the
enumerating error frame. -/
theorem c7_unknown_tools_rejected_witness :
    handleChatRequest [exToolMouseMove] (fun _ _ => exDoneStub) "go"
        (some exCfgBadTools) =
      [Json.obj [
        ("content", Json.str
          "Error: Agent 'model-x' references unknown tools: no_such_tool. Available tools are: mouse_move"),
        ("error", Json.bool true), ("type", Json.str "chat_response")]] := by
  have h := (c7_unknown_tools_rejected [exToolMouseMove]
    (fun _ _ => exDoneStub) (fun _ _ => exDoneStub) "go" exCfgBadTools
    (by decide)).1
  exact h

/-! ## Claim C5: delegation depth bound -/

/-- C5: Delegation depth never exceeds the configured maximum (3 as the
session handler assembles it): (i) the session's maximum is 3; (ii) a
dispatcher whose depth has reached the maximum fails a delegating tool
call with an error naming the target agent; (iii) at that depth the
outcome does not depend on the nested-execution runner at all (no nested
execution starts); (iv) in general the outcome depends on the runner
only through its behaviour at depth one greater than the dispatcher's
own — every nested execution is started at `depth + 1`. -/
theorem c5_delegation_depth_bounded :
    sessionMaxDelegationDepth = 3 ∧
    (∀ (rawExec : String → Json → Except String String)
       (lookup : String → Option Agent) (maxD : Nat)
       (runReact : AgentConfig → String → Option String → Nat →
         Except String String)
       (depth : Nat) (name : String) (args : Json) (result : String)
       (d : DelegationRequest),
       rawExec name args = .ok result →
       is_delegation_request result = some d →
       maxD ≤ depth →
       dispatchTool rawExec lookup maxD runReact depth name args =
         .error ("Maximum delegation depth (" ++ toString maxD ++
           ") reached. Cannot delegate to agent '" ++ d.agent_id ++ "'")) ∧
    (∀ (rawExec : String → Json → Except String String)
       (lookup : String → Option Agent) (maxD : Nat)
       (r1 r2 : AgentConfig → String → Option String → Nat →
         Except String String)
       (depth : Nat) (name : String) (args : Json),
       maxD ≤ depth →
       dispatchTool rawExec lookup maxD r1 depth name args =
         dispatchTool rawExec lookup maxD r2 depth name args) ∧
    (∀ (rawExec : String → Json → Except String String)
       (lookup : String → Option Agent) (maxD : Nat)
       (r1 r2 : AgentConfig → String → Option String → Nat →
         Except String String)
       (depth : Nat) (name : String) (args : Json),
       (∀ cfg task aid, r1 cfg task aid (depth + 1) =
         r2 cfg task aid (depth + 1)) →
       dispatchTool rawExec lookup maxD r1 depth name args =
         dispatchTool rawExec lookup maxD r2 depth name args) := by
  refine ⟨rfl, ?_, ?_, ?_⟩
  · intro rawExec lookup maxD runReact depth name args result d hraw hdel hle
    simp only [dispatchTool, hraw, hdel, if_pos hle]
  · intro rawExec lookup maxD r1 r2 depth name args hle
    simp only [dispatchTool]
    cases rawExec name args with
    | error e => rfl
    | ok result =>
        dsimp only
        cases is_delegation_request result with
        | none => rfl
        | some d => simp only [if_pos hle]
  · intro rawExec lookup maxD r1 r2 depth name args hagree
    simp only [dispatchTool]
    cases rawExec name args with
    | error e => rfl
    | ok result =>
        dsimp only
        cases is_delegation_request result with
        | none => rfl
        | some d =>
            by_cases hle : maxD ≤ depth
            · simp only [if_pos hle]
            · simp only [if_neg hle]
              cases lookup d.agent_id with
              | none => rfl
              | some agent => dsimp only; rw [hagree]

/-- Fixtures for the delegation witness. -/
def exDelegation : DelegationRequest :=
  ⟨"desktop-automation-agent", "Move mouse to (100, 100)"⟩

def exRawExec : String → Json → Except String String :=
  fun _ _ => .ok (delegationMarker exDelegation)

def exRunReact : AgentConfig → String → Option String → Nat →
    Except String String :=
  fun _ _ _ _ => .ok "nested result"

/-- C5 witness: a dispatcher at the session maximum depth 3 rejects a
delegation to `desktop-automation-agent` with the depth error. -/
theorem c5_delegation_depth_bounded_witness :
    dispatchTool exRawExec (fun _ => none) sessionMaxDelegationDepth
      exRunReact 3 "delegate_to_agent" (Json.obj []) =
      .error ("Maximum delegation depth (" ++ toString sessionMaxDelegationDepth ++
        ") reached. Cannot delegate to agent 'desktop-automation-agent'") := by
  have h := c5_delegation_depth_bounded.2.1 exRawExec (fun _ => none)
    sessionMaxDelegationDepth exRunReact 3 "delegate_to_agent"
    (Json.obj []) (delegationMarker exDelegation) exDelegation rfl
    rfl (by decide)
  exact h

/-! ## Claim C8: locked records survive update and delete -/

/-- C8: an update or delete addressed at a locked agent or prompt record
returns an error and leaves the whole store unchanged. -/
theorem c8_locked_records_unchanged :
    (∀ (st : AgentStore) (id : String) (agent r : Agent),
       st.get id = some r → r.is_locked = true →
       AgentStorage.update st id agent =
         (.error ("Cannot update locked agent '" ++ id ++ "'"), st)) ∧
    (∀ (st : AgentStore) (id : String) (r : Agent),
       st.get id = some r → r.is_locked = true →
       AgentStorage.delete st id =
         (.error ("Cannot delete locked agent '" ++ id ++ "'"), st)) ∧
    (∀ (now : String) (st : PromptStore) (id : String) (updates r : Prompt),
       st.get id = some r → r.is_locked = true →
       PromptStorage.update now st id updates =
         (.error ("Cannot modify locked prompt '" ++ id ++ "'"), st)) ∧
    (∀ (st : PromptStore) (id : String) (r : Prompt),
       st.get id = some r → r.is_locked = true →
       PromptStorage.delete st id =
         (.error ("Cannot delete locked prompt '" ++ id ++ "'"), st)) := by
  refine ⟨?_, ?_, ?_, ?_⟩
  · intro st id agent r hget hlock
    simp only [AgentStorage.update, hget, hlock, if_pos]
  · intro st id r hget hlock
    simp only [AgentStorage.delete, hget, hlock, if_pos]
  · intro now st id updates r hget hlock
    simp only [PromptStorage.update, hget, hlock, if_pos]
  · intro st id r hget hlock
    simp only [PromptStorage.delete, hget, hlock, if_pos]

/-- A built-in (locked) agent record, as `reset_agents` stores it. -/
def exAgentLocked : Agent :=
  { id := "desktop-automation-agent", name := "Desktop Automation Agent",
    purpose := "Control mouse and keyboard for desktop automation tasks",
    system_prompt := "You are a desktop automation agent.",
    tools := ["mouse_move"], model_id := "@cf/meta/llama-3.3-70b-instruct-fp8-fast",
    max_iterations := 5, is_locked := true,
    separate_reasoning_model := false, reasoning_model_id := none,
    created_at := "2026-01-01T00:00:00+00:00",
    updated_at := "2026-01-01T00:00:00+00:00" }

def exAgentChanged : Agent :=
  { exAgentLocked with name := "Changed", is_locked := false }

/-- A built-in (locked) prompt record. -/
def exPromptLocked : Prompt :=
  { id := "react-basic", name := "ReAct Basic",
    description := "Basic ReAct prompt", prompt_type := "systemPrompt",
    category := "built-in", content := "You are an agent.",
    metadata := { created_at := "2026-01-01T00:00:00+00:00",
                  updated_at := "2026-01-01T00:00:00+00:00",
                  version := "1.0.0", author := none, tags := none },
    is_locked := true }

def exPromptChanged : Prompt :=
  { exPromptLocked with content := "Changed", is_locked := false }

/-- C8 witness: concrete locked agent and prompt records reject update
and delete with the store intact. -/
theorem c8_locked_records_unchanged_witness :
    AgentStorage.update [("desktop-automation-agent", exAgentLocked)]
        "desktop-automation-agent" exAgentChanged =
      (.error "Cannot update locked agent 'desktop-automation-agent'",
       [("desktop-automation-agent", exAgentLocked)]) ∧
    AgentStorage.delete [("desktop-automation-agent", exAgentLocked)]
        "desktop-automation-agent" =
      (.error "Cannot delete locked agent 'desktop-automation-agent'",
       [("desktop-automation-agent", exAgentLocked)]) ∧
    PromptStorage.update "2026-02-02T00:00:00+00:00"
        [("react-basic", exPromptLocked)] "react-basic" exPromptChanged =
      (.error "Cannot modify locked prompt 'react-basic'",
       [("react-basic", exPromptLocked)]) ∧
    PromptStorage.delete [("react-basic", exPromptLocked)] "react-basic" =
      (.error "Cannot delete locked prompt 'react-basic'",
       [("react-basic", exPromptLocked)]) := by
  refine ⟨?_, ?_, ?_, ?_⟩
  · exact c8_locked_records_unchanged.1 _ _ exAgentChanged exAgentLocked
      rfl rfl
  · exact c8_locked_records_unchanged.2.1 _ _ exAgentLocked rfl rfl
  · exact c8_locked_records_unchanged.2.2.1 _ _ _ exPromptChanged
      exPromptLocked rfl rfl
  · exact c8_locked_records_unchanged.2.2.2 _ _ exPromptLocked rfl rfl

/-! ## Claim C10: created prompts are unlocked user-created records -/

/-- C10: for any prompt the create operation accepts (its id absent from
the store), the stored and returned record has category
`"user-created"`, `is_locked = false`, version `"1.0.0"` and both
timestamps freshly stamped, whatever the submitted record carried in
those fields; the remaining fields are taken from the submission. -/
theorem c10_created_prompts_unlocked (now : String) (st : PromptStore)
    (p : Prompt) (hfree : st.get p.id = none) :
    ∃ stored : Prompt,
      PromptStorage.create now st p = (.ok stored, st.insert p.id stored) ∧
      stored.category = "user-created" ∧
      stored.is_locked = false ∧
      stored.metadata.version = "1.0.0" ∧
      stored.metadata.created_at = now ∧
      stored.metadata.updated_at = now ∧
      stored.id = p.id ∧ stored.name = p.name ∧
      stored.description = p.description ∧
      stored.prompt_type = p.prompt_type ∧
      stored.content = p.content ∧
      stored.metadata.author = p.metadata.author ∧
      stored.metadata.tags = p.metadata.tags := by
  refine ⟨{ p with
              category := "user-created", is_locked := false,
              metadata := { p.metadata with
                              created_at := now, updated_at := now,
                              version := "1.0.0" } },
    ?_, rfl, rfl, rfl, rfl, rfl, rfl, rfl, rfl, rfl, rfl, rfl, rfl⟩
  simp only [PromptStorage.create, hfree, Option.isSome_none,
    Bool.false_eq_true, if_false]

/-- C10 witness: a submission claiming to be a locked built-in record is
stored as an unlocked user-created one with fresh metadata. -/
theorem c10_created_prompts_unlocked_witness :
    ∃ stored : Prompt,
      PromptStorage.create "2026-03-03T00:00:00+00:00" []
          { exPromptLocked with
              id := "my-prompt",
              metadata := { exPromptLocked.metadata with
                              version := "9.9.9" } } =
        (.ok stored, PromptStore.insert [] "my-prompt" stored) ∧
      stored.category = "user-created" ∧
      stored.is_locked = false ∧
      stored.metadata.version = "1.0.0" ∧
      stored.metadata.created_at = "2026-03-03T00:00:00+00:00" ∧
      stored.metadata.updated_at = "2026-03-03T00:00:00+00:00" := by
  obtain ⟨stored, h1, h2, h3, h4, h5, h6, -⟩ :=
    c10_created_prompts_unlocked "2026-03-03T00:00:00+00:00" []
      { exPromptLocked with
          id := "my-prompt",
          metadata := { exPromptLocked.metadata with
                          version := "9.9.9" } }
      rfl
  exact ⟨stored, h1, h2, h3, h4, h5, h6⟩

/-! ## Claim C3: commandId passthrough -/

theorem lookup_filter_append (fs : List (String × Json)) (name : String)
    (v : Json) :
    List.lookup name (fs.filter (fun f => f.1 ≠ name) ++ [(name, v)]) =
      some v := by
  induction fs with
  | nil => simp [List.lookup]
  | cons p rest ih =>
      by_cases hp : p.1 = name
      · have hd : (decide ¬(p.1 = name)) = false := by simp [hp]
        simp only [List.filter_cons, ne_eq, hd, Bool.false_eq_true,
          if_false]
        exact ih
      · have hd : (decide ¬(p.1 = name)) = true := by simp [hp]
        have hb : (name == p.1) = false := by simp [Ne.symm hp]
        obtain ⟨k, v2⟩ := p
        simp only at hp hb
        simp only [List.filter_cons, ne_eq, hd, if_true,
          List.cons_append, List.lookup, hb]
        exact ih

/-- The outbound object after `setField` carries the field. -/
theorem getField_setField_obj (fs : List (String × Json)) (name : String)
    (v : Json) :
    ((Json.obj fs).setField name v).getField name = some v := by
  simp only [Json.setField, Json.getField]
  exact lookup_filter_append fs name v

/-- C3 (amended): the commandId passthrough belongs to the raw
automation-command path alone.  For an inbound object whose `type` is
absent, non-string, or not a recognized protocol kind, the handler takes
the raw-command path; there, a string-valued `commandId` is restored
verbatim on the outbound object (the serialized `Response` is always a
JSON object), and a message without `commandId` yields a response
without `commandId` (the serialized `Response` never carries one).
Recognized protocol kinds reply without echoing `commandId` — the
counterexample shows `get_agents` dropping it. -/
theorem c3_commandid_amended (handleCommand : Json → Except String Json)
    (frame : Json) (agents : AgentStore)
    (protoHandler : String → Json → List Json)
    (hfall : ∀ t, frame.getField "type" = some (Json.str t) →
      recognizedTypes.contains t = false) :
    handleFrame agents protoHandler handleCommand frame =
      rawCommandPath handleCommand frame ∧
    (∀ id, frame.getStr "commandId" = some id →
      (∀ j r, handleCommand j = .ok r → ∃ fs, r = Json.obj fs) →
      ∀ resp ∈ rawCommandPath handleCommand frame,
        resp.getField "commandId" = some (Json.str id)) ∧
    (frame.getStr "commandId" = none →
      (∀ j r, handleCommand j = .ok r →
        r.hasField "commandId" = false) →
      ∀ resp ∈ rawCommandPath handleCommand frame,
        resp.hasField "commandId" = false) := by
  refine ⟨?_, ?_, ?_⟩
  · cases hty : frame.getField "type" with
    | none => simp [handleFrame, hty]
    | some j =>
        cases j with
        | str t =>
            have hct := hfall t hty
            have hne : t ≠ "get_agents" := by
              intro h
              rw [h] at hct
              exact absurd hct (by decide)
            simp only [handleFrame, hty]
            rw [if_neg hne, if_neg (by rw [hct]; simp)]
        | null => simp [handleFrame, hty]
        | bool b => simp [handleFrame, hty]
        | num n => simp [handleFrame, hty]
        | arr xs => simp [handleFrame, hty]
        | obj fs => simp [handleFrame, hty]
  · intro id hid hObj resp hresp
    simp only [rawCommandPath, hid] at hresp
    cases hc : handleCommand (frame.removeField "commandId") with
    | ok r =>
        obtain ⟨fs, rfl⟩ := hObj _ _ hc
        rw [hc] at hresp
        simp only [List.mem_singleton] at hresp
        rw [hresp]
        exact getField_setField_obj fs "commandId" (Json.str id)
    | error e =>
        rw [hc] at hresp
        simp only [List.mem_singleton] at hresp
        rw [hresp]
        exact getField_setField_obj _ "commandId" (Json.str id)
  · intro hid hok resp hresp
    simp only [rawCommandPath, hid] at hresp
    cases hc : handleCommand (frame.removeField "commandId") with
    | ok r =>
        rw [hc] at hresp
        simp only [List.mem_singleton] at hresp
        rw [hresp]
        exact hok _ _ hc
    | error e =>
        rw [hc] at hresp
        simp only [List.mem_singleton] at hresp
        rw [hresp]
        rfl

/-- C3 counterexample: a recognized protocol request (`get_agents`)
carrying `commandId` is answered without it — the response is the plain
`agents_list` frame, which has no `commandId` field although the inbound
object did. -/
theorem c3_commandid_counterexample :
    handleFrame [] (fun _ _ => []) (fun _ => .error "x")
        (Json.obj [("commandId", Json.str "abc"),
                   ("type", Json.str "get_agents")]) =
      [Json.obj [("agents", Json.arr []),
                 ("type", Json.str "agents_list")]] ∧
    (Json.obj [("agents", Json.arr []),
               ("type", Json.str "agents_list")]).hasField "commandId"
      = false ∧
    (Json.obj [("commandId", Json.str "abc"),
               ("type", Json.str "get_agents")]).hasField "commandId"
      = true := by
  exact ⟨rfl, rfl, rfl⟩

/-- The raw automation command and serialized response of the C3
witness. -/
def exCmdFrame : Json :=
  Json.obj [("commandId", Json.str "xyz"),
            ("type", Json.str "mouse_move"),
            ("x", Json.num 5), ("y", Json.num 5)]

def exCmdHandler : Json → Except String Json :=
  fun _ => .ok (Json.obj [("message", Json.str "Moved mouse to (5, 5)"),
                          ("type", Json.str "success")])

/-- C3 witness: a `mouse_move` command with `commandId = "xyz"` takes
the raw path and its success response echoes `commandId` verbatim. -/
theorem c3_commandid_amended_witness :
    handleFrame [] (fun _ _ => []) exCmdHandler exCmdFrame =
      rawCommandPath exCmdHandler exCmdFrame ∧
    rawCommandPath exCmdHandler exCmdFrame =
      [Json.obj [("message", Json.str "Moved mouse to (5, 5)"),
                 ("type", Json.str "success"),
                 ("commandId", Json.str "xyz")]] ∧
    (Json.obj [("message", Json.str "Moved mouse to (5, 5)"),
               ("type", Json.str "success"),
               ("commandId", Json.str "xyz")]).getField "commandId" =
      some (Json.str "xyz") := by
  have h := c3_commandid_amended exCmdHandler exCmdFrame []
    (fun _ _ => [])
    (fun t ht => by
      have : t = "mouse_move" := by
        have := Option.some.injEq .. ▸ ht
        simp only [Json.getField] at ht
        cases ht
        rfl
      rw [this]
      decide)
  refine ⟨h.1, rfl, ?_⟩
  have hb := h.2.1 "xyz" rfl
    (fun j r hr => by
      cases hr
      exact ⟨_, rfl⟩)
  exact hb _ (by rw [show rawCommandPath exCmdHandler exCmdFrame =
    [Json.obj [("message", Json.str "Moved mouse to (5, 5)"),
               ("type", Json.str "success"),
               ("commandId", Json.str "xyz")]] from rfl]; simp)

end CfAi
